import Mathlib

/-!
Verification of the mdsim simulation driver (src/mdsim/simulation.py) and
trajectory analyzer (src/mdsim/traj_analyzer.py).

Numbers: numpy floating-point scalars are embedded as rationals (ℚ), so the
exact arithmetic identities of the code are stated over ℚ.

External collaborators (the numintegrator integrator, the mdforce force-field,
the duq unit library, numpy's vector norm, and the repository's element-data
table and unit helpers which are not included under src/) are modelled at
their documented interface boundary; each such definition carries a doc
comment saying what it models.
-/

/-- A frame of per-atom 3D data (positions, velocities, accelerations):
numpy array of shape (num_atoms, 3), embedded as a list of rows. -/
abbrev Pos := List (List ℚ)

/-- 1D numpy array of scalars. -/
abbrev Arr1 := List ℚ

/-- 2D numpy array of scalars. -/
abbrev Arr2 := List (List ℚ)

/-- 3D numpy array of scalars. -/
abbrev Arr3 := List (List (List ℚ))

/-- Modelled from the spec: a duq unit handle (external UnitSystem capability).
A unit is a physical dimension (integer exponents over length, time, mass,
temperature) together with a rational scale factor relative to the reference
unit of that dimension. -/
structure UnitQ where
  expL : ℤ
  expT : ℤ
  expM : ℤ
  expK : ℤ
  scale : ℚ
deriving DecidableEq

instance instMulUnitQ : Mul UnitQ :=
  ⟨fun a b => ⟨a.expL + b.expL, a.expT + b.expT, a.expM + b.expM, a.expK + b.expK,
    a.scale * b.scale⟩⟩

instance instDivUnitQ : Div UnitQ :=
  ⟨fun a b => ⟨a.expL - b.expL, a.expT - b.expT, a.expM - b.expM, a.expK - b.expK,
    a.scale / b.scale⟩⟩

/-- Modelled from the spec: duq unit exponentiation (u ** n). -/
def upow (u : UnitQ) (n : Nat) : UnitQ :=
  ⟨u.expL * n, u.expT * n, u.expM * n, u.expK * n, u.scale ^ n⟩

/-- Modelled from the spec: the external UnitSystem capability (duq.Unit)
parsing a unit label into a quantity with a dimension; only the labels the
repository itself uses are given meaning, every other label is read as a
dimensionless reference unit. -/
def duqUnit (s : String) : UnitQ :=
  if s = "Da" then ⟨0, 0, 1, 0, 1⟩
  else if s = "K" then ⟨0, 0, 0, 1, 1⟩
  else if s = "m" then ⟨1, 0, 0, 0, 1⟩
  else if s = "s" then ⟨0, 1, 0, 0, 1⟩
  else ⟨0, 0, 0, 0, 1⟩

/-- Modelled from the spec: mdsim.helpers.convert_to_unit (repository code not
included under src/): resolves a unit given either as a label or as an
already-resolved unit handle into a unit handle.  The dimension and name
arguments are used in the source only for validation and error messages and do
not alter the returned unit. -/
def convert_to_unit (u : Sum String UnitQ) (dim name : String) : UnitQ :=
  match u with
  | Sum.inl s => duqUnit s
  | Sum.inr uq => uq

/-- Modelled from the spec: the fixed element-property table
(mdsim.data.elements_data, repository code not included under src/) mapping an
atomic number to the atomic mass in Daltons. -/
def massOf (z : Nat) : ℚ :=
  if z = 1 then 1008 / 1000
  else if z = 8 then 15999 / 1000
  else (z : ℚ)

/-- The data the force-field exposes after one evaluation
(mdforce ForceField capability, read immediately after the call in
MDSimulation._force): the four potential-energy components, the per-molecule
bond angles, the pairwise interatomic distances, and the acceleration. -/
structure FFOut where
  energy_coulomb : ℚ
  energy_lennard_jones : ℚ
  energy_bond_vibration : ℚ
  energy_angle_vibration : ℚ
  bond_angles : List ℚ
  distances : List (List ℚ)
  acceleration : Pos
deriving DecidableEq

/-- The six diagnostic arrays allocated by MDSimulation.run (lines 121-128).
In the Python object they are six separate instance attributes, always
allocated together at the start of one run and handed together to the
TrajectoryAnalyzer; they are bundled here so that a heap cell can hold the
whole allocation of one run. -/
structure Buffers where
  energy_potential_coulomb : Arr1
  energy_potential_lennard_jones : Arr1
  energy_potential_bond_vibration : Arr1
  energy_potential_angle_vibration : Arr1
  bond_angles : Arr2
  distances_interatomic : Arr3
deriving DecidableEq

/-- numpy scalar store a[i] = x: in-place overwrite for an in-bounds index,
IndexError (modelled as none) for an out-of-bounds index.  The index is a
natural number, as the step counter in the source only counts upward from 0. -/
def npSet (a : Arr1) (i : Nat) (x : ℚ) : Option Arr1 :=
  if i < a.length then some (a.set i x) else none

/-- numpy row store a[i, ...] = v for a 2D array: overwrites row i when the
index is in bounds and v has the row's shape; IndexError / broadcast error
(modelled as none) otherwise. -/
def npSetRow (a : Arr2) (i : Nat) (v : Arr1) : Option Arr2 :=
  match a.get? i with
  | none => none
  | some row => if v.length = row.length then some (a.set i v) else none

/-- Shape equality of two 2D arrays (row count and each row length). -/
def sameShape2 : Arr2 → Arr2 → Bool
  | [], [] => true
  | a :: v, b :: w => a.length == b.length && sameShape2 v w
  | _, _ => false

/-- numpy slice store a[i, ...] = v for a 3D array: overwrites slice i when the
index is in bounds and v has the slice's shape; IndexError / broadcast error
(modelled as none) otherwise. -/
def npSetRow2 (a : Arr3) (i : Nat) (v : Arr2) : Option Arr3 :=
  match a.get? i with
  | none => none
  | some row => if sameShape2 v row then some (a.set i v) else none

/-- The buffer allocation of MDSimulation.run (lines 121-128): four scalar
series of length num_steps+1, a bond-angle series of shape
(num_steps+1, number_molecules_total), and a pairwise-distance series of shape
(num_steps+1, number_atoms_total, number_atoms_total), all zero-initialized. -/
def allocBuffers (num_steps nm na : Nat) : Buffers :=
  ⟨List.replicate (num_steps + 1) 0,
   List.replicate (num_steps + 1) 0,
   List.replicate (num_steps + 1) 0,
   List.replicate (num_steps + 1) 0,
   List.replicate (num_steps + 1) (List.replicate nm 0),
   List.replicate (num_steps + 1) (List.replicate na (List.replicate na 0))⟩

/-- The six diagnostic stores of MDSimulation._force (lines 195-206): writes
the force-field outputs of one evaluation into slot i of every buffer, in the
source's statement order; any out-of-bounds index propagates as a failure
(numpy IndexError). -/
def writeSlot (b : Buffers) (i : Nat) (out : FFOut) : Option Buffers :=
  match npSet b.energy_potential_coulomb i out.energy_coulomb with
  | none => none
  | some epc =>
  match npSet b.energy_potential_lennard_jones i out.energy_lennard_jones with
  | none => none
  | some eplj =>
  match npSet b.energy_potential_bond_vibration i out.energy_bond_vibration with
  | none => none
  | some epbv =>
  match npSet b.energy_potential_angle_vibration i out.energy_angle_vibration with
  | none => none
  | some epav =>
  match npSetRow b.bond_angles i out.bond_angles with
  | none => none
  | some ba =>
  match npSetRow2 b.distances_interatomic i out.distances with
  | none => none
  | some di => some ⟨epc, eplj, epbv, epav, ba, di⟩

/-- MDSimulation._force (lines 172-210): evaluates the force-field on the
current positions, writes all six diagnostic quantities into the slot indexed
by the current step counter, increments the counter, and returns the
acceleration.  The force-field evaluation is the external mdforce capability,
passed in as a function that may itself fail; its state is read immediately
after the call, so it is modelled as a pure function of the positions. -/
def force (ffeval : Pos → Option FFOut) (curr_step : Nat) (b : Buffers) (q : Pos) :
    Option (Nat × Buffers × Pos) :=
  match ffeval q with
  | none => none
  | some out =>
    match writeSlot b curr_step out with
    | none => none
    | some b2 => some (curr_step + 1, b2, out.acceleration)

/-- A sequence of force-callback invocations in the integrator's call order:
the list holds the positions of each call, threaded through counter and
buffers exactly as the integrator threads MDSimulation._force. -/
def forceCalls (ffeval : Pos → Option FFOut) (curr_step : Nat) (b : Buffers) :
    List Pos → Option (Nat × Buffers)
  | [] => some (curr_step, b)
  | q :: qs =>
    match force ffeval curr_step b q with
    | none => none
    | some (c2, b2, _) => forceCalls ffeval c2 b2 qs

/-- Slot i of every diagnostic buffer holds exactly the quantities of one
force-field output. -/
def slotEq (b : Buffers) (i : Nat) (out : FFOut) : Prop :=
  b.energy_potential_coulomb.get? i = some out.energy_coulomb ∧
  b.energy_potential_lennard_jones.get? i = some out.energy_lennard_jones ∧
  b.energy_potential_bond_vibration.get? i = some out.energy_bond_vibration ∧
  b.energy_potential_angle_vibration.get? i = some out.energy_angle_vibration ∧
  b.bond_angles.get? i = some out.bond_angles ∧
  b.distances_interatomic.get? i = some out.distances

/-- Slot j of every diagnostic buffer agrees between two buffer states. -/
def slotSame (b b2 : Buffers) (j : Nat) : Prop :=
  b2.energy_potential_coulomb.get? j = b.energy_potential_coulomb.get? j ∧
  b2.energy_potential_lennard_jones.get? j = b.energy_potential_lennard_jones.get? j ∧
  b2.energy_potential_bond_vibration.get? j = b.energy_potential_bond_vibration.get? j ∧
  b2.energy_potential_angle_vibration.get? j = b.energy_potential_angle_vibration.get? j ∧
  b2.bond_angles.get? j = b.bond_angles.get? j ∧
  b2.distances_interatomic.get? j = b.distances_interatomic.get? j

/-- All six buffers have the lengths and row shapes given to allocBuffers. -/
def BuffersWF (b : Buffers) (L nm na : Nat) : Prop :=
  b.energy_potential_coulomb.length = L ∧
  b.energy_potential_lennard_jones.length = L ∧
  b.energy_potential_bond_vibration.length = L ∧
  b.energy_potential_angle_vibration.length = L ∧
  b.bond_angles.length = L ∧ (∀ row ∈ b.bond_angles, row.length = nm) ∧
  b.distances_interatomic.length = L ∧
  (∀ m ∈ b.distances_interatomic, m.length = na ∧ ∀ row ∈ m, row.length = na)

/-- Modelled from the spec: the external mdforce ForceField capability at the
interface MDSimulation consumes: initialization with the ensemble shape and
optional periodic box, unit fitting, a callable evaluation on positions, and
the declared energy and angle units.  The two preparation calls are external
and may fail (they return a success flag); the evaluation may fail per call. -/
structure ForceField where
  initialize_forcefield : Nat × Nat → Option (List ℚ) → Bool
  fit_units_to_input_data : UnitQ → UnitQ → Bool
  eval : Pos → Option FFOut
  unit_energy : UnitQ
  unit_angle : UnitQ

/-- A value passed as the forcefield constructor argument, together with the
result of Python's class-membership test.  The source tests
"not isinstance(forcefield, ForceField) or not issubclass(forcefield.__class__,
ForceField)"; for CPython objects these two tests coincide (isinstance(x, C)
holds exactly when issubclass(x.__class__, C)), so one flag models both. -/
structure ForceFieldArg where
  is_forcefield_instance : Bool
  value : ForceField

/-- Modelled from the spec: the external EnsembleGenerator capability at the
interface MDSimulation consumes: read-only accessors for the initial data,
the atom and molecule counts, and the declared units. -/
structure EnsembleGenerator where
  positions : Pos
  velocities : Pos
  atomic_numbers : List Nat
  molecule_ids : List Nat
  connectivity_matrix : List (List Bool)
  box_lengths : List ℚ
  number_atoms_total : Nat
  number_molecules_total : Nat
  unit_positions : UnitQ
  unit_time : UnitQ
  unit_velocities : UnitQ

/-- A value passed as the ensemble constructor argument, with the result of
Python's class-membership test (see ForceFieldArg). -/
structure EnsembleArg where
  is_ensemble_instance : Bool
  value : EnsembleGenerator

/-- The record MDSimulation.run packages at lines 151-169: the integrator's
series, the static ensemble metadata, the unit handles, and the six diagnostic
arrays.  The diagnostic arrays are numpy objects shared by reference with the
driver, so the trajectory holds the heap reference of its run's buffers. -/
structure Trajectory where
  positions : Arr3
  velocities : Arr3
  timestamps : Arr1
  atomic_numbers : List Nat
  molecule_ids : List Nat
  connectivity_matrix : List (List Bool)
  buffers_ref : Nat
  unit_length : UnitQ
  unit_time : UnitQ
  unit_velocity : UnitQ
  unit_energy : UnitQ
  unit_angle : UnitQ

/-- The MDSimulation instance attributes (simulation.py lines 50-61).  The six
diagnostic-array attributes are modelled as one optional heap reference to the
Buffers record of the current run (they are always (re)assigned together at
lines 121-128). -/
structure MDSimulation where
  _forcefield : ForceFieldArg
  _ensemble : EnsembleArg
  _trajectory : Option Trajectory
  _positions : Option Arr3
  _velocities : Option Arr3
  _timestamps : Option Arr1
  _buffers : Option Nat
  _curr_step : Option Nat

/-- MDSimulation.__init__ (lines 20-62): rejects a forcefield or ensemble that
fails the class-membership test with a ValueError, otherwise stores both
arguments unchanged and initializes every result attribute to None. -/
def MDSimulation.init (forcefield : ForceFieldArg) (ensemble : EnsembleArg) :
    Except String MDSimulation :=
  if !forcefield.is_forcefield_instance then
    Except.error "Argument `forcefield` should either be an instance or a subclass of `mdforce.models.forcefield_superclass.ForceField`."
  else if !ensemble.is_ensemble_instance then
    Except.error "Argument `ensemble` should either be an instance or a subclass of `mdsim.ensemble_generator.superclass.EnsembleGenerator`."
  else
    Except.ok
      { _forcefield := forcefield
        _ensemble := ensemble
        _trajectory := none
        _positions := none
        _velocities := none
        _timestamps := none
        _buffers := none
        _curr_step := none }

/-- The MDSimulation.trajectory property (lines 64-77): raises a ValueError
when the simulation has not produced a trajectory, returns it otherwise. -/
def MDSimulation.trajectory (s : MDSimulation) : Except String Trajectory :=
  match s._trajectory with
  | none => Except.error "The simulation has not yet been run."
  | some t => Except.ok t

/-- A heap of numpy buffer allocations: each run's six diagnostic arrays live
in one cell, addressed by the order of allocation. -/
structure Heap where
  next : Nat
  store : Nat → Option Buffers

/-- Allocate a fresh cell. -/
def Heap.alloc (h : Heap) (b : Buffers) : Nat × Heap :=
  (h.next, ⟨h.next + 1, fun r => if r = h.next then some b else h.store r⟩)

/-- Overwrite an existing cell in place. -/
def Heap.set (h : Heap) (r : Nat) (b : Buffers) : Heap :=
  ⟨h.next, fun r2 => if r2 = r then some b else h.store r2⟩

/-- MDSimulation._force acting through the heap: the callback state the
integrator threads is the step counter together with the heap holding the
diagnostic arrays of the current run at reference r. -/
def forceH (ffeval : Pos → Option FFOut) (r : Nat) :
    Nat × Heap → Pos → Option ((Nat × Heap) × Pos) :=
  fun ch q =>
    match ch.2.store r with
    | none => none
    | some b =>
      match force ffeval ch.1 b q with
      | none => none
      | some (c2, b2, acc) => some ((c2, ch.2.set r b2), acc)

/-- Elementwise sum of two per-atom arrays. -/
def posAdd (a b : Pos) : Pos :=
  List.zipWith (fun x y => List.zipWith (fun p q => p + q) x y) a b

/-- Scalar multiple of a per-atom array. -/
def posSmul (c : ℚ) (a : Pos) : Pos :=
  a.map (fun x => x.map (fun p => c * p))

/-- One velocity-Verlet position update (external integrator numerics). -/
def verletX (dt : ℚ) (x v a : Pos) : Pos :=
  posAdd x (posAdd (posSmul dt v) (posSmul (dt * dt / 2) a))

/-- One velocity-Verlet velocity update (external integrator numerics). -/
def verletV (dt : ℚ) (v a a2 : Pos) : Pos :=
  posAdd v (posSmul (dt / 2) (posAdd a a2))

/-- Modelled from the spec: the loop of the external Integrator capability
(numintegrator, explicit velocity-Verlet): from the current state (positions,
velocities, acceleration) it performs k further steps, calling the step
function once per step, and returns the series of the k+1 remaining frames;
a step-function failure aborts with the callback state reached so far. -/
def integrateFrom {σ : Type} (f : σ → Pos → Option (σ × Pos)) (dt : ℚ) :
    Nat → ℚ → σ → Pos → Pos → Pos →
    Except σ (σ × List Pos × List Pos × List ℚ)
  | 0, tcur, s, x, v, _a => Except.ok (s, [x], [v], [tcur])
  | Nat.succ k, tcur, s, x, v, a =>
    match f s (verletX dt x v a) with
    | none => Except.error s
    | some (s2, a2) =>
      match integrateFrom f dt k (tcur + dt) s2 (verletX dt x v a)
          (verletV dt v a a2) a2 with
      | Except.error s3 => Except.error s3
      | Except.ok (s3, xs, vs, ts) => Except.ok (s3, x :: xs, v :: vs, tcur :: ts)

/-- Modelled from the spec: the external Integrator capability
(numintegrator.integrate with the ODE_2_EXPLICIT_VELOCITY_VERLET scheme,
spec section 6): evaluates the step function once on the initial positions and
once per step — exactly n_steps+1 calls on a completed run — and returns
position, velocity and timestamp series of n_steps+1 frames, the i-th force
evaluation happening at the i-th position frame. -/
def integrate {σ : Type} (f : σ → Pos → Option (σ × Pos)) (x0 v0 : Pos)
    (dt : ℚ) (n_steps : Nat) (s : σ) :
    Except σ (σ × List Pos × List Pos × List ℚ) :=
  match f s x0 with
  | none => Except.error s
  | some (s1, a0) => integrateFrom f dt n_steps 0 s1 x0 v0 a0

/-- The periodic-box argument passed to the force-field at initialization
(simulation.py line 132): the ensemble's box lengths under periodic boundary
conditions, nothing otherwise. -/
def pbcBox (pbc : Bool) (ens : EnsembleGenerator) : Option (List ℚ) :=
  if pbc then some ens.box_lengths else none

/-- The shape of the ensemble's position array, as passed to
initialize_forcefield. -/
def shapeOf (p : Pos) : Nat × Nat :=
  (p.length, (p.headD []).length)

/-- MDSimulation.run (lines 101-170): allocates the six diagnostic buffers
sized to num_steps+1, initializes and unit-fits the force-field, resets the
step counter to 0, runs the integrator with _force as the step function, and
packages the results into a trajectory.  A failure in force-field
initialization, unit fitting, or the integration loop propagates out (as the
Except error) carrying the driver state mutated so far, with no trajectory
assigned. -/
def MDSimulation.run (s : MDSimulation) (h : Heap) (num_steps : Nat) (dt : ℚ)
    (pbc : Bool) : Except (MDSimulation × Heap) (MDSimulation × Heap) :=
  let ens := s._ensemble.value
  let buf := allocBuffers num_steps ens.number_molecules_total ens.number_atoms_total
  let rh := Heap.alloc h buf
  let r := rh.1
  let h1 := rh.2
  let s1 := { s with _buffers := some r }
  let ff := s._forcefield.value
  if !ff.initialize_forcefield (shapeOf ens.positions) (pbcBox pbc ens) then
    Except.error (s1, h1)
  else if !ff.fit_units_to_input_data ens.unit_positions ens.unit_time then
    Except.error (s1, h1)
  else
    let s2 := { s1 with _curr_step := some 0 }
    match integrate (forceH ff.eval r) ens.positions ens.velocities dt num_steps (0, h1) with
    | Except.error ch => Except.error ({ s2 with _curr_step := some ch.1 }, ch.2)
    | Except.ok (ch, xs, vs, ts) =>
      let s3 := { s2 with
        _curr_step := some ch.1
        _positions := some xs
        _velocities := some vs
        _timestamps := some ts }
      let t : Trajectory :=
        { positions := xs
          velocities := vs
          timestamps := ts
          atomic_numbers := ens.atomic_numbers
          molecule_ids := ens.molecule_ids
          connectivity_matrix := ens.connectivity_matrix
          buffers_ref := r
          unit_length := ens.unit_positions
          unit_time := ens.unit_time
          unit_velocity := ens.unit_velocities
          unit_energy := ff.unit_energy
          unit_angle := ff.unit_angle }
      Except.ok ({ s3 with _trajectory := some t }, ch.2)

/-- Modelled from the spec: the external capabilities the derived-quantity
computations consume — numpy's Euclidean vector norm over the three spatial
components (np.linalg.norm with axis=2) and duq's conversion of the predefined
Boltzmann constant into a requested unit
(duq.predefined_constants.boltzmann_const.convert_unit(u).value).  The
analyzer's computations are parametric in these, so every theorem below holds
for an arbitrary behaviour of the external libraries. -/
structure ExtCaps where
  vecnorm : List ℚ → ℚ
  boltzmann_in : UnitQ → ℚ

/-- The TrajectoryAnalyzer instance attributes (traj_analyzer.py lines 90-129):
the raw trajectory arrays, the static metadata, the resolved unit handles, and
one optional cache slot per derived quantity (None until first computed). -/
structure TrajectoryAnalyzer where
  _positions : Arr3
  _velocities : Arr3
  _timestamps : Arr1
  _atomic_numbers : List Nat
  _molecule_ids : List Nat
  _connectivity_matrix : List (List Bool)
  _energy_potential_coulomb : Arr1
  _energy_potential_lennard_jones : Arr1
  _energy_potential_bond_vibration : Arr1
  _energy_potential_angle_vibration : Arr1
  _distances_interatomic : Arr3
  _bond_angles : Arr2
  _masses : Arr1
  _unit_mass : Sum String UnitQ
  _unit_length : Sum String UnitQ
  _unit_time : Sum String UnitQ
  _unit_velocity : Option UnitQ
  _unit_energy : Option UnitQ
  _unit_angle : UnitQ
  _unit_momentum : Option UnitQ
  _unit_temperature : UnitQ
  _speeds : Option Arr2
  _momenta : Option Arr2
  _energy_kinetic_per_atom : Option Arr2
  _temperature : Option Arr1
  _energy_kinetic_total : Option Arr1
  _energy_potential_total : Option Arr1
  _energy_total : Option Arr1
  _bond_lengths : Option Arr2

/-- TrajectoryAnalyzer.__init__ (lines 41-130): stores the raw arrays and
metadata, looks the per-atom masses up in the element table, resolves every
unit argument through helpers.convert_to_unit, eagerly computes the momentum
unit as unit_mass * unit_velocity (line 119), fixes the temperature unit to
Kelvin, and initializes every derived-quantity cache slot to None. -/
def TrajectoryAnalyzer.init (positions velocities : Arr3) (timestamps : Arr1)
    (atomic_numbers : List Nat) (molecule_ids : List Nat)
    (connectivity_matrix : List (List Bool))
    (energy_potential_coulomb energy_potential_lennard_jones
     energy_potential_bond_vibration energy_potential_angle_vibration : Arr1)
    (distances_interatomic : Arr3) (bond_angles : Arr2)
    (unit_length unit_time unit_velocity unit_energy unit_angle : Sum String UnitQ) :
    TrajectoryAnalyzer :=
  let uV := convert_to_unit unit_velocity "L.T^-1" "unit_velocity"
  { _positions := positions
    _velocities := velocities
    _timestamps := timestamps
    _atomic_numbers := atomic_numbers
    _molecule_ids := molecule_ids
    _connectivity_matrix := connectivity_matrix
    _energy_potential_coulomb := energy_potential_coulomb
    _energy_potential_lennard_jones := energy_potential_lennard_jones
    _energy_potential_bond_vibration := energy_potential_bond_vibration
    _energy_potential_angle_vibration := energy_potential_angle_vibration
    _distances_interatomic := distances_interatomic
    _bond_angles := bond_angles
    _masses := atomic_numbers.map massOf
    _unit_mass := Sum.inr (duqUnit "Da")
    _unit_length := Sum.inr (convert_to_unit unit_length "L" "unit_length")
    _unit_time := Sum.inr (convert_to_unit unit_time "T" "unit_time")
    _unit_velocity := some uV
    _unit_energy := some (convert_to_unit unit_energy "E" "unit_energy")
    _unit_angle := convert_to_unit unit_angle "dimensionless" "unit_angle"
    _unit_momentum := some (duqUnit "Da" * uV)
    _unit_temperature := duqUnit "K"
    _speeds := none
    _momenta := none
    _energy_kinetic_per_atom := none
    _temperature := none
    _energy_kinetic_total := none
    _energy_potential_total := none
    _energy_total := none
    _bond_lengths := none }

/-- The unit_mass property (lines 132-138): coerces a still-unresolved string
label to a unit handle on first access and returns the stored handle. -/
def TrajectoryAnalyzer.unit_mass (t : TrajectoryAnalyzer) :
    TrajectoryAnalyzer × UnitQ :=
  match t._unit_mass with
  | Sum.inl s => let u := duqUnit s; ({ t with _unit_mass := Sum.inr u }, u)
  | Sum.inr u => (t, u)

/-- The unit_length property (lines 140-146). -/
def TrajectoryAnalyzer.unit_length (t : TrajectoryAnalyzer) :
    TrajectoryAnalyzer × UnitQ :=
  match t._unit_length with
  | Sum.inl s => let u := duqUnit s; ({ t with _unit_length := Sum.inr u }, u)
  | Sum.inr u => (t, u)

/-- The unit_time property (lines 148-154). -/
def TrajectoryAnalyzer.unit_time (t : TrajectoryAnalyzer) :
    TrajectoryAnalyzer × UnitQ :=
  match t._unit_time with
  | Sum.inl s => let u := duqUnit s; ({ t with _unit_time := Sum.inr u }, u)
  | Sum.inr u => (t, u)

/-- The unit_velocity property (lines 156-162): derives length/time only when
the stored value is None, otherwise returns the stored unit. -/
def TrajectoryAnalyzer.unit_velocity (t : TrajectoryAnalyzer) :
    TrajectoryAnalyzer × UnitQ :=
  match t._unit_velocity with
  | some u => (t, u)
  | none =>
    let p1 := t.unit_length
    let p2 := p1.1.unit_time
    let u := p1.2 / p2.2
    ({ p2.1 with _unit_velocity := some u }, u)

/-- The unit_momentum property (lines 164-170): derives mass * velocity only
when the stored value is None. -/
def TrajectoryAnalyzer.unit_momentum (t : TrajectoryAnalyzer) :
    TrajectoryAnalyzer × UnitQ :=
  match t._unit_momentum with
  | some u => (t, u)
  | none =>
    let p1 := t.unit_mass
    let p2 := p1.1.unit_velocity
    let u := p1.2 * p2.2
    ({ p2.1 with _unit_momentum := some u }, u)

/-- The unit_energy property (lines 172-178): derives
mass * length^2 / time^2 only when the stored value is None. -/
def TrajectoryAnalyzer.unit_energy (t : TrajectoryAnalyzer) :
    TrajectoryAnalyzer × UnitQ :=
  match t._unit_energy with
  | some u => (t, u)
  | none =>
    let p1 := t.unit_mass
    let p2 := p1.1.unit_length
    let p3 := p2.1.unit_time
    let u := p1.2 * upow p2.2 2 / upow p3.2 2
    ({ p3.1 with _unit_energy := some u }, u)

/-- The unit_temperature property (lines 180-182): plain read. -/
def TrajectoryAnalyzer.unit_temperature (t : TrajectoryAnalyzer) :
    TrajectoryAnalyzer × UnitQ :=
  (t, t._unit_temperature)

/-- The speeds property (lines 232-238 and 315-317): on first access computes
np.linalg.norm(velocities, axis=2) and caches it; afterwards returns the
cached array. -/
def TrajectoryAnalyzer.speeds (ext : ExtCaps) (t : TrajectoryAnalyzer) :
    TrajectoryAnalyzer × Arr2 :=
  match t._speeds with
  | some v => (t, v)
  | none =>
    let v := t._velocities.map (fun frame => frame.map ext.vecnorm)
    ({ t with _speeds := some v }, v)

/-- The momenta property (lines 224-230 and 311-313): masses * speeds with the
per-atom masses broadcast across frames. -/
def TrajectoryAnalyzer.momenta (ext : ExtCaps) (t : TrajectoryAnalyzer) :
    TrajectoryAnalyzer × Arr2 :=
  match t._momenta with
  | some v => (t, v)
  | none =>
    let p := t.speeds ext
    let v := p.2.map (fun row => List.zipWith (fun m x => m * x) p.1._masses row)
    ({ p.1 with _momenta := some v }, v)

/-- The energy_kinetic_per_atom property (lines 216-222 and 307-309):
0.5 * momenta * speeds elementwise. -/
def TrajectoryAnalyzer.energy_kinetic_per_atom (ext : ExtCaps)
    (t : TrajectoryAnalyzer) : TrajectoryAnalyzer × Arr2 :=
  match t._energy_kinetic_per_atom with
  | some v => (t, v)
  | none =>
    let p1 := t.momenta ext
    let p2 := p1.1.speeds ext
    let v := List.zipWith
      (fun prow srow => List.zipWith (fun p x => 1 / 2 * p * x) prow srow) p1.2 p2.2
    ({ p2.1 with _energy_kinetic_per_atom := some v }, v)

/-- The energy_kinetic_total property (lines 200-206 and 303-305): the sum of
energy_kinetic_per_atom over the atom axis. -/
def TrajectoryAnalyzer.energy_kinetic_total (ext : ExtCaps)
    (t : TrajectoryAnalyzer) : TrajectoryAnalyzer × Arr1 :=
  match t._energy_kinetic_total with
  | some v => (t, v)
  | none =>
    let p := t.energy_kinetic_per_atom ext
    let v := p.2.map (fun row => row.sum)
    ({ p.1 with _energy_kinetic_total := some v }, v)

/-- The energy_potential_total property (lines 192-198 and 294-301): the
elementwise sum of the four potential-energy series. -/
def TrajectoryAnalyzer.energy_potential_total (t : TrajectoryAnalyzer) :
    TrajectoryAnalyzer × Arr1 :=
  match t._energy_potential_total with
  | some v => (t, v)
  | none =>
    let v := List.zipWith (fun a b => a + b)
      (List.zipWith (fun a b => a + b)
        (List.zipWith (fun a b => a + b)
          t._energy_potential_coulomb t._energy_potential_lennard_jones)
        t._energy_potential_bond_vibration)
      t._energy_potential_angle_vibration
    ({ t with _energy_potential_total := some v }, v)

/-- The energy_total property (lines 184-190 and 290-292): potential plus
kinetic total, elementwise. -/
def TrajectoryAnalyzer.energy_total (ext : ExtCaps) (t : TrajectoryAnalyzer) :
    TrajectoryAnalyzer × Arr1 :=
  match t._energy_total with
  | some v => (t, v)
  | none =>
    let p1 := t.energy_potential_total
    let p2 := p1.1.energy_kinetic_total ext
    let v := List.zipWith (fun a b => a + b) p1.2 p2.2
    ({ p2.1 with _energy_total := some v }, v)

/-- The numpy mean of a 1D array (sum divided by length). -/
def npMean (a : Arr1) : ℚ := a.sum / a.length

/-- The temperature property (lines 208-214 and 319-327): on first access
derives the Boltzmann-constant unit as unit_energy / unit_temperature,
converts the Boltzmann constant into it through the external unit library, and
computes mean-over-atoms of the per-atom kinetic energy divided by
(3/2 * k_B), caching the result. -/
def TrajectoryAnalyzer.temperature (ext : ExtCaps) (t : TrajectoryAnalyzer) :
    TrajectoryAnalyzer × Arr1 :=
  match t._temperature with
  | some v => (t, v)
  | none =>
    let p1 := t.unit_energy
    let p2 := p1.1.unit_temperature
    let kB := ext.boltzmann_in (p1.2 / p2.2)
    let p3 := p2.1.energy_kinetic_per_atom ext
    let v := p3.2.map (fun row => npMean row / (3 / 2 * kB))
    ({ p3.1 with _temperature := some v }, v)

/-- A dimensionless reference unit, for concrete instances. -/
def uD : UnitQ := ⟨0, 0, 0, 0, 1⟩

/-- A length unit, for concrete instances. -/
def uL1 : UnitQ := ⟨1, 0, 0, 0, 1⟩

/-- A time unit, for concrete instances. -/
def uT1 : UnitQ := ⟨0, 1, 0, 0, 1⟩

/-- A velocity-dimensioned unit whose scale differs from uL1 / uT1. -/
def uV2 : UnitQ := ⟨1, -1, 0, 0, 2⟩

/-- An energy-dimensioned unit, for concrete instances. -/
def uE1 : UnitQ := ⟨2, -2, 1, 0, 1⟩

/-- A concrete instantiation of the external numpy/duq capabilities, for
witness evaluations. -/
def extC : ExtCaps := ⟨fun v => v.sum, fun _ => 2⟩

/-- A concrete one-atom, one-frame trajectory analyzer. -/
def taC : TrajectoryAnalyzer :=
  TrajectoryAnalyzer.init [[[0, 0, 0]]] [[[1, 2, 3]]] [0] [1] [0] [[false]]
    [1] [1] [1] [1] [[[0]]] [[2]]
    (Sum.inr uL1) (Sum.inr uT1) (Sum.inr uV2) (Sum.inr uE1) (Sum.inr uD)

/-- A concrete trajectory analyzer whose declared velocity unit differs in
scale from length/time. -/
def taC8 : TrajectoryAnalyzer :=
  TrajectoryAnalyzer.init [] [] [] [] [] [] [] [] [] [] [] []
    (Sum.inr uL1) (Sum.inr uT1) (Sum.inr uV2) (Sum.inr uE1) (Sum.inr uD)

/-- A concrete force-field output for a one-atom, one-molecule system. -/
def ffOutC : FFOut := ⟨5, 6, 7, 8, [9], [[4]], [[1, 2, 3]]⟩

/-- A concrete total force-field evaluation returning ffOutC on every call. -/
def ffevalC : Pos → Option FFOut := fun _ => some ffOutC

/-- A concrete force-field whose preparation calls always succeed. -/
def ffC : ForceField := ⟨fun _ _ => true, fun _ _ => true, ffevalC, uE1, uD⟩

/-- A concrete force-field whose initialization fails. -/
def ffBadC : ForceField := ⟨fun _ _ => false, fun _ _ => true, ffevalC, uE1, uD⟩

/-- A concrete one-atom, one-molecule ensemble. -/
def ensC : EnsembleGenerator :=
  ⟨[[0, 0, 0]], [[0, 0, 0]], [1], [0], [[false]], [1, 1, 1], 1, 1, uL1, uT1, uV2⟩

/-- The concrete force-field passed as a valid constructor argument. -/
def ffaC : ForceFieldArg := ⟨true, ffC⟩

/-- The concrete force-field passed as a failing-initialization argument. -/
def ffaBadC : ForceFieldArg := ⟨true, ffBadC⟩

/-- The concrete ensemble passed as a valid constructor argument. -/
def ensaC : EnsembleArg := ⟨true, ensC⟩

/-- The driver state produced by constructing on the concrete collaborators. -/
def simC : MDSimulation :=
  ⟨ffaC, ensaC, none, none, none, none, none, none⟩

/-- The driver state constructed on the failing-initialization force-field. -/
def simBadC : MDSimulation :=
  ⟨ffaBadC, ensaC, none, none, none, none, none, none⟩

/-- The empty heap. -/
def heap0 : Heap := ⟨0, fun _ => none⟩

/-- A concrete buffers value standing for the arrays of an earlier run. -/
def b0C : Buffers := allocBuffers 0 1 1

/-- A concrete trajectory of an earlier run, referencing heap cell 0. -/
def t0C : Trajectory :=
  ⟨[[[0, 0, 0]]], [[[0, 0, 0]]], [0], [1], [0], [[false]], 0, uL1, uT1, uV2, uE1, uD⟩

/-- A driver state that already holds the trajectory of an earlier run. -/
def simT : MDSimulation :=
  ⟨ffaC, ensaC, some t0C, some [[[0, 0, 0]]], some [[[0, 0, 0]]], some [0],
    some 0, some 1⟩

/-- The heap after the earlier run: cell 0 holds that run's buffers. -/
def heap1 : Heap := ⟨1, fun r => if r = 0 then some b0C else none⟩

theorem speeds_cached (ext : ExtCaps) (t : TrajectoryAnalyzer) (v : Arr2)
    (h : t._speeds = some v) : t.speeds ext = (t, v) := by
  simp [TrajectoryAnalyzer.speeds, h]

theorem speeds_post (ext : ExtCaps) (t : TrajectoryAnalyzer) :
    ((t.speeds ext).1)._speeds = some (t.speeds ext).2 := by
  cases h : t._speeds <;> simp [TrajectoryAnalyzer.speeds, h]

theorem momenta_cached (ext : ExtCaps) (t : TrajectoryAnalyzer) (v : Arr2)
    (h : t._momenta = some v) : t.momenta ext = (t, v) := by
  simp [TrajectoryAnalyzer.momenta, h]

theorem momenta_post (ext : ExtCaps) (t : TrajectoryAnalyzer) :
    ((t.momenta ext).1)._momenta = some (t.momenta ext).2 := by
  cases h : t._momenta <;> simp [TrajectoryAnalyzer.momenta, h]

theorem energy_kinetic_per_atom_cached (ext : ExtCaps) (t : TrajectoryAnalyzer)
    (v : Arr2) (h : t._energy_kinetic_per_atom = some v) :
    t.energy_kinetic_per_atom ext = (t, v) := by
  simp [TrajectoryAnalyzer.energy_kinetic_per_atom, h]

theorem energy_kinetic_per_atom_post (ext : ExtCaps) (t : TrajectoryAnalyzer) :
    ((t.energy_kinetic_per_atom ext).1)._energy_kinetic_per_atom =
      some (t.energy_kinetic_per_atom ext).2 := by
  cases h : t._energy_kinetic_per_atom <;>
    simp [TrajectoryAnalyzer.energy_kinetic_per_atom, h]

theorem energy_kinetic_total_cached (ext : ExtCaps) (t : TrajectoryAnalyzer)
    (v : Arr1) (h : t._energy_kinetic_total = some v) :
    t.energy_kinetic_total ext = (t, v) := by
  simp [TrajectoryAnalyzer.energy_kinetic_total, h]

theorem energy_kinetic_total_post (ext : ExtCaps) (t : TrajectoryAnalyzer) :
    ((t.energy_kinetic_total ext).1)._energy_kinetic_total =
      some (t.energy_kinetic_total ext).2 := by
  cases h : t._energy_kinetic_total <;>
    simp [TrajectoryAnalyzer.energy_kinetic_total, h]

theorem energy_potential_total_cached (t : TrajectoryAnalyzer) (v : Arr1)
    (h : t._energy_potential_total = some v) : t.energy_potential_total = (t, v) := by
  simp [TrajectoryAnalyzer.energy_potential_total, h]

theorem energy_potential_total_post (t : TrajectoryAnalyzer) :
    (t.energy_potential_total.1)._energy_potential_total =
      some t.energy_potential_total.2 := by
  cases h : t._energy_potential_total <;>
    simp [TrajectoryAnalyzer.energy_potential_total, h]

theorem energy_total_cached (ext : ExtCaps) (t : TrajectoryAnalyzer) (v : Arr1)
    (h : t._energy_total = some v) : t.energy_total ext = (t, v) := by
  simp [TrajectoryAnalyzer.energy_total, h]

theorem energy_total_post (ext : ExtCaps) (t : TrajectoryAnalyzer) :
    ((t.energy_total ext).1)._energy_total = some (t.energy_total ext).2 := by
  cases h : t._energy_total <;> simp [TrajectoryAnalyzer.energy_total, h]

theorem temperature_cached (ext : ExtCaps) (t : TrajectoryAnalyzer) (v : Arr1)
    (h : t._temperature = some v) : t.temperature ext = (t, v) := by
  simp [TrajectoryAnalyzer.temperature, h]

theorem temperature_post (ext : ExtCaps) (t : TrajectoryAnalyzer) :
    ((t.temperature ext).1)._temperature = some (t.temperature ext).2 := by
  cases h : t._temperature <;> simp [TrajectoryAnalyzer.temperature, h]

/-- C7: Cache idempotence: for every trajectory-analyzer state and every
derived quantity (speed, momentum, kinetic energy per atom, kinetic energy
total, potential energy total, total energy, temperature), reading the
quantity a second time returns exactly the state and the cached array produced
by the first read — the value is computed at most once, every later read
returns the identical cached array, and two reads of the same quantity yield
identical results.  Holds for arbitrary behaviour of the external numpy/duq
capabilities. -/
theorem cache_idempotence (ext : ExtCaps) (t : TrajectoryAnalyzer) :
    ((t.speeds ext).1).speeds ext = t.speeds ext ∧
    ((t.momenta ext).1).momenta ext = t.momenta ext ∧
    ((t.energy_kinetic_per_atom ext).1).energy_kinetic_per_atom ext =
      t.energy_kinetic_per_atom ext ∧
    ((t.energy_kinetic_total ext).1).energy_kinetic_total ext =
      t.energy_kinetic_total ext ∧
    (t.energy_potential_total.1).energy_potential_total =
      t.energy_potential_total ∧
    ((t.energy_total ext).1).energy_total ext = t.energy_total ext ∧
    ((t.temperature ext).1).temperature ext = t.temperature ext := by
  refine ⟨?_, ?_, ?_, ?_, ?_, ?_, ?_⟩
  · rw [speeds_cached ext _ _ (speeds_post ext t)]
  · rw [momenta_cached ext _ _ (momenta_post ext t)]
  · rw [energy_kinetic_per_atom_cached ext _ _ (energy_kinetic_per_atom_post ext t)]
  · rw [energy_kinetic_total_cached ext _ _ (energy_kinetic_total_post ext t)]
  · rw [energy_potential_total_cached _ _ (energy_potential_total_post t)]
  · rw [energy_total_cached ext _ _ (energy_total_post ext t)]
  · rw [temperature_cached ext _ _ (temperature_post ext t)]

/-- C6: Temperature derivation: for every analyzer state whose temperature is
not yet cached and every behaviour of the external unit library, each frame of
the computed temperature equals the mean over atoms of the per-atom kinetic
energy of that frame divided by (3/2 * k_B), where k_B is the Boltzmann
constant converted by the external UnitSystem into the unit
unit_energy / unit_temperature derived from the trajectory's declared energy
unit — not a hard-coded numeric constant. -/
theorem temperature_formula (ext : ExtCaps) (t : TrajectoryAnalyzer)
    (h : t._temperature = none) : ∀ f : Nat,
    ((t.temperature ext).2).get? f =
      (((((t.unit_energy).1).energy_kinetic_per_atom ext).2).get? f).map
        (fun row => npMean row /
          (3 / 2 * ext.boltzmann_in
            ((t.unit_energy).2 / ((t.unit_energy).1)._unit_temperature))) := by
  intro f
  simp only [TrajectoryAnalyzer.temperature, h, TrajectoryAnalyzer.unit_temperature]
  exact List.get?_map _ _ f

theorem temperature_formula_witness :
    ((taC.temperature extC).2).get? 0 =
      (((((taC.unit_energy).1).energy_kinetic_per_atom extC).2).get? 0).map
        (fun row => npMean row /
          (3 / 2 * extC.boltzmann_in
            ((taC.unit_energy).2 / ((taC.unit_energy).1)._unit_temperature))) :=
  temperature_formula extC taC rfl 0

/-- C8 counterexample: on a concretely constructed analyzer the unit fields
for velocity, momentum and energy are already populated before any access —
they were not computed on first access — and the velocity unit returned by the
accessor is the constructor argument, not length/time derived from the base
units. -/
theorem lazy_units_cex :
    taC8._unit_velocity ≠ none ∧ taC8._unit_momentum ≠ none ∧
    taC8._unit_energy ≠ none ∧
    (taC8.unit_velocity).2 ≠
      ((taC8.unit_length).2) / (((taC8.unit_length).1).unit_time).2 := by
  refine ⟨by simp [taC8, TrajectoryAnalyzer.init], by simp [taC8, TrajectoryAnalyzer.init],
    by simp [taC8, TrajectoryAnalyzer.init], ?_⟩
  have h1 : (taC8.unit_velocity).2 = uV2 := rfl
  have h2 : ((taC8.unit_length).2) / (((taC8.unit_length).1).unit_time).2 = uL1 / uT1 := rfl
  rw [h1, h2]
  simp only [uV2, uL1, uT1, HDiv.hDiv, instDivUnitQ]
  intro h
  have hs := congrArg UnitQ.scale h
  have hs2 : (2 : ℚ) = 1 / 1 := hs
  norm_num at hs2

/-- C8 amended: the unit fields for velocity, momentum and energy are resolved
eagerly at construction — velocity and energy from the corresponding
constructor arguments and momentum computed once as mass * velocity — and
memoized; every access on a state with a populated field returns the stored
unit with no recomputation and no state change; the accessors derive
velocity = length/time, momentum = mass * velocity and
energy = mass * length^2 / time^2 only in the fallback case where the field is
unset, which construction never leaves. -/
theorem unit_fields_eager :
    (∀ (p v : Arr3) (ts : Arr1) (an : List Nat) (mi : List Nat)
       (cm : List (List Bool)) (e1 e2 e3 e4 : Arr1) (di : Arr3) (ba : Arr2)
       (ul ut uv ue ua : Sum String UnitQ),
       (TrajectoryAnalyzer.init p v ts an mi cm e1 e2 e3 e4 di ba ul ut uv ue ua)._unit_velocity =
         some (convert_to_unit uv "L.T^-1" "unit_velocity") ∧
       (TrajectoryAnalyzer.init p v ts an mi cm e1 e2 e3 e4 di ba ul ut uv ue ua)._unit_energy =
         some (convert_to_unit ue "E" "unit_energy") ∧
       (TrajectoryAnalyzer.init p v ts an mi cm e1 e2 e3 e4 di ba ul ut uv ue ua)._unit_momentum =
         some (duqUnit "Da" * convert_to_unit uv "L.T^-1" "unit_velocity")) ∧
    (∀ (t : TrajectoryAnalyzer) (u : UnitQ), t._unit_velocity = some u →
       t.unit_velocity = (t, u)) ∧
    (∀ (t : TrajectoryAnalyzer) (u : UnitQ), t._unit_momentum = some u →
       t.unit_momentum = (t, u)) ∧
    (∀ (t : TrajectoryAnalyzer) (u : UnitQ), t._unit_energy = some u →
       t.unit_energy = (t, u)) ∧
    (∀ t : TrajectoryAnalyzer, t._unit_velocity = none →
       (t.unit_velocity).2 = (t.unit_length).2 / (((t.unit_length).1).unit_time).2) ∧
    (∀ t : TrajectoryAnalyzer, t._unit_momentum = none →
       (t.unit_momentum).2 = (t.unit_mass).2 * (((t.unit_mass).1).unit_velocity).2) ∧
    (∀ t : TrajectoryAnalyzer, t._unit_energy = none →
       (t.unit_energy).2 =
         (t.unit_mass).2 * upow (((t.unit_mass).1).unit_length).2 2 /
           upow (((((t.unit_mass).1).unit_length).1).unit_time).2 2) := by
  refine ⟨fun _ _ _ _ _ _ _ _ _ _ _ _ _ _ _ _ _ => ⟨rfl, rfl, rfl⟩, ?_, ?_, ?_, ?_, ?_, ?_⟩
  · intro t u h; simp [TrajectoryAnalyzer.unit_velocity, h]
  · intro t u h; simp [TrajectoryAnalyzer.unit_momentum, h]
  · intro t u h; simp [TrajectoryAnalyzer.unit_energy, h]
  · intro t h; simp [TrajectoryAnalyzer.unit_velocity, h]
  · intro t h; simp [TrajectoryAnalyzer.unit_momentum, h]
  · intro t h; simp [TrajectoryAnalyzer.unit_energy, h]

theorem unit_fields_eager_witness :
    taC8._unit_velocity = some uV2 ∧ taC8.unit_velocity = (taC8, uV2) :=
  ⟨(unit_fields_eager.1 [] [] [] [] [] [] [] [] [] [] [] []
      (Sum.inr uL1) (Sum.inr uT1) (Sum.inr uV2) (Sum.inr uE1) (Sum.inr uD)).1,
   unit_fields_eager.2.1 taC8 uV2 rfl⟩

theorem npSet_some {a : Arr1} {i : Nat} {x : ℚ} {a2 : Arr1}
    (h : npSet a i x = some a2) : i < a.length ∧ a2 = a.set i x := by
  unfold npSet at h
  split at h
  · exact ⟨by assumption, (Option.some.inj h).symm⟩
  · cases h

theorem npSetRow_some {a : Arr2} {i : Nat} {v : Arr1} {a2 : Arr2}
    (h : npSetRow a i v = some a2) :
    ∃ row, a.get? i = some row ∧ v.length = row.length ∧ a2 = a.set i v := by
  unfold npSetRow at h
  cases hg : a.get? i with
  | none => simp only [hg] at h; cases h
  | some row =>
    simp only [hg] at h
    split at h
    · exact ⟨row, rfl, by assumption, (Option.some.inj h).symm⟩
    · cases h

theorem npSetRow2_some {a : Arr3} {i : Nat} {v : Arr2} {a2 : Arr3}
    (h : npSetRow2 a i v = some a2) :
    ∃ row, a.get? i = some row ∧ sameShape2 v row = true ∧ a2 = a.set i v := by
  unfold npSetRow2 at h
  cases hg : a.get? i with
  | none => simp only [hg] at h; cases h
  | some row =>
    simp only [hg] at h
    split at h
    · exact ⟨row, rfl, by assumption, (Option.some.inj h).symm⟩
    · cases h

theorem sameShape2_of_uniform (na : Nat) :
    ∀ (v w : Arr2), v.length = w.length → (∀ r ∈ v, r.length = na) →
      (∀ r ∈ w, r.length = na) → sameShape2 v w = true
  | [], [], _, _, _ => rfl
  | a :: v, b :: w, hl, h1, h2 => by
    simp only [sameShape2, Bool.and_eq_true, beq_iff_eq]
    refine ⟨by rw [h1 a (by simp), h2 b (by simp)], ?_⟩
    exact sameShape2_of_uniform na v w (by simpa using hl)
      (fun r hr => h1 r (by simp [hr])) (fun r hr => h2 r (by simp [hr]))

theorem sameShape2_uniform (na : Nat) :
    ∀ (v w : Arr2), sameShape2 v w = true → (∀ r ∈ w, r.length = na) →
      v.length = w.length ∧ ∀ r ∈ v, r.length = na
  | [], [], _, _ => ⟨rfl, by simp⟩
  | [], b :: w, h, _ => by simp [sameShape2] at h
  | a :: v, [], h, _ => by simp [sameShape2] at h
  | a :: v, b :: w, h, h2 => by
    simp only [sameShape2, Bool.and_eq_true, beq_iff_eq] at h
    obtain ⟨hlen, hrest⟩ := h
    obtain ⟨ih1, ih2⟩ := sameShape2_uniform na v w hrest
      (fun r hr => h2 r (by simp [hr]))
    refine ⟨by simp [ih1], ?_⟩
    intro r hr
    rcases List.mem_cons.mp hr with h | h
    · rw [h, hlen]; exact h2 b (by simp)
    · exact ih2 r h

theorem writeSlot_some {b : Buffers} {i : Nat} {out : FFOut} {b2 : Buffers}
    (h : writeSlot b i out = some b2) :
    i < b.energy_potential_coulomb.length ∧
    i < b.energy_potential_lennard_jones.length ∧
    i < b.energy_potential_bond_vibration.length ∧
    i < b.energy_potential_angle_vibration.length ∧
    (∃ row, b.bond_angles.get? i = some row ∧ out.bond_angles.length = row.length) ∧
    (∃ row, b.distances_interatomic.get? i = some row ∧
      sameShape2 out.distances row = true) ∧
    b2 = ⟨b.energy_potential_coulomb.set i out.energy_coulomb,
          b.energy_potential_lennard_jones.set i out.energy_lennard_jones,
          b.energy_potential_bond_vibration.set i out.energy_bond_vibration,
          b.energy_potential_angle_vibration.set i out.energy_angle_vibration,
          b.bond_angles.set i out.bond_angles,
          b.distances_interatomic.set i out.distances⟩ := by
  unfold writeSlot at h
  cases h1 : npSet b.energy_potential_coulomb i out.energy_coulomb with
  | none => simp only [h1] at h; cases h
  | some epc =>
  simp only [h1] at h
  cases h2 : npSet b.energy_potential_lennard_jones i out.energy_lennard_jones with
  | none => simp only [h2] at h; cases h
  | some eplj =>
  simp only [h2] at h
  cases h3 : npSet b.energy_potential_bond_vibration i out.energy_bond_vibration with
  | none => simp only [h3] at h; cases h
  | some epbv =>
  simp only [h3] at h
  cases h4 : npSet b.energy_potential_angle_vibration i out.energy_angle_vibration with
  | none => simp only [h4] at h; cases h
  | some epav =>
  simp only [h4] at h
  cases h5 : npSetRow b.bond_angles i out.bond_angles with
  | none => simp only [h5] at h; cases h
  | some ba =>
  simp only [h5] at h
  cases h6 : npSetRow2 b.distances_interatomic i out.distances with
  | none => simp only [h6] at h; cases h
  | some di =>
  simp only [h6] at h
  obtain ⟨hb1, he1⟩ := npSet_some h1
  obtain ⟨hb2, he2⟩ := npSet_some h2
  obtain ⟨hb3, he3⟩ := npSet_some h3
  obtain ⟨hb4, he4⟩ := npSet_some h4
  obtain ⟨row5, hg5, hl5, he5⟩ := npSetRow_some h5
  obtain ⟨row6, hg6, hs6, he6⟩ := npSetRow2_some h6
  refine ⟨hb1, hb2, hb3, hb4, ⟨row5, hg5, hl5⟩, ⟨row6, hg6, hs6⟩, ?_⟩
  rw [← Option.some.inj h, he1, he2, he3, he4, he5, he6]

theorem force_some {ffeval : Pos → Option FFOut} {c : Nat} {b : Buffers} {q : Pos}
    {c2 : Nat} {b2 : Buffers} {acc : Pos}
    (h : force ffeval c b q = some (c2, b2, acc)) :
    c2 = c + 1 ∧ ∃ out, ffeval q = some out ∧ acc = out.acceleration ∧
      writeSlot b c out = some b2 := by
  unfold force at h
  cases h1 : ffeval q with
  | none => simp only [h1] at h; cases h
  | some out =>
  simp only [h1] at h
  cases h2 : writeSlot b c out with
  | none => simp only [h2] at h; cases h
  | some b3 =>
  simp only [h2] at h
  injection h with h7
  injection h7 with hc h8
  injection h8 with hb ha
  exact ⟨hc.symm, out, rfl, ha.symm, by rw [h2, hb]⟩

theorem get?_lt_length {α : Type} {l : List α} {i : Nat} {x : α}
    (h : l.get? i = some x) : i < l.length := by
  rcases List.get?_eq_some.mp h with ⟨hlt, _⟩
  exact hlt

theorem writeSlot_slotEq {b : Buffers} {i : Nat} {out : FFOut} {b2 : Buffers}
    (h : writeSlot b i out = some b2) : slotEq b2 i out := by
  obtain ⟨hb1, hb2, hb3, hb4, ⟨row5, hg5, _⟩, ⟨row6, hg6, _⟩, hrec⟩ := writeSlot_some h
  subst hrec
  exact ⟨List.get?_set_eq_of_lt _ hb1, List.get?_set_eq_of_lt _ hb2,
    List.get?_set_eq_of_lt _ hb3, List.get?_set_eq_of_lt _ hb4,
    List.get?_set_eq_of_lt _ (get?_lt_length hg5),
    List.get?_set_eq_of_lt _ (get?_lt_length hg6)⟩

theorem writeSlot_slotSame {b : Buffers} {i : Nat} {out : FFOut} {b2 : Buffers}
    (h : writeSlot b i out = some b2) : ∀ j, j ≠ i → slotSame b b2 j := by
  obtain ⟨_, _, _, _, _, _, hrec⟩ := writeSlot_some h
  subst hrec
  intro j hj
  exact ⟨List.get?_set_ne _ _ (fun he => hj he.symm),
    List.get?_set_ne _ _ (fun he => hj he.symm),
    List.get?_set_ne _ _ (fun he => hj he.symm),
    List.get?_set_ne _ _ (fun he => hj he.symm),
    List.get?_set_ne _ _ (fun he => hj he.symm),
    List.get?_set_ne _ _ (fun he => hj he.symm)⟩

theorem writeSlot_wf {b : Buffers} {i : Nat} {out : FFOut} {b2 : Buffers}
    (h : writeSlot b i out = some b2) {L nm na : Nat}
    (hwf : BuffersWF b L nm na) : BuffersWF b2 L nm na := by
  obtain ⟨_, _, _, _, ⟨row5, hg5, hl5⟩, ⟨row6, hg6, hs6⟩, hrec⟩ := writeSlot_some h
  obtain ⟨L1, L2, L3, L4, L5, hrow5, L6, hrow6⟩ := hwf
  subst hrec
  refine ⟨by simp [L1], by simp [L2], by simp [L3], by simp [L4],
    by simp [L5], ?_, by simp [L6], ?_⟩
  · intro r hr
    rcases List.mem_or_eq_of_mem_set hr with hm | he
    · exact hrow5 r hm
    · rw [he, hl5]; exact hrow5 row5 (List.get?_mem hg5)
  · intro m hm
    rcases List.mem_or_eq_of_mem_set hm with hmem | he
    · exact hrow6 m hmem
    · subst he
      obtain ⟨hlen, huni⟩ := sameShape2_uniform na out.distances row6 hs6
        (hrow6 row6 (List.get?_mem hg6)).2
      exact ⟨hlen.trans (hrow6 row6 (List.get?_mem hg6)).1, huni⟩

theorem writeSlot_overflow {b : Buffers} {c : Nat} {out : FFOut}
    (h : b.energy_potential_coulomb.length ≤ c) : writeSlot b c out = none := by
  unfold writeSlot
  have h0 : npSet b.energy_potential_coulomb c out.energy_coulomb = none := by
    unfold npSet; rw [if_neg (by omega)]
  simp only [h0]

theorem force_overflow (ffeval : Pos → Option FFOut) (c : Nat) (b : Buffers)
    (q : Pos) (h : b.energy_potential_coulomb.length ≤ c) :
    force ffeval c b q = none := by
  unfold force
  cases ffeval q with
  | none => rfl
  | some out => simp only [writeSlot_overflow h]

theorem slotSame_self (b : Buffers) (j : Nat) : slotSame b b j :=
  ⟨rfl, rfl, rfl, rfl, rfl, rfl⟩

theorem slotSame_trans {b1 b2 b3 : Buffers} {j : Nat} (h1 : slotSame b1 b2 j)
    (h2 : slotSame b2 b3 j) : slotSame b1 b3 j :=
  ⟨h2.1.trans h1.1, h2.2.1.trans h1.2.1, h2.2.2.1.trans h1.2.2.1,
   h2.2.2.2.1.trans h1.2.2.2.1, h2.2.2.2.2.1.trans h1.2.2.2.2.1,
   h2.2.2.2.2.2.trans h1.2.2.2.2.2⟩

theorem slotEq_mono {b1 b2 : Buffers} {i : Nat} {out : FFOut}
    (h1 : slotEq b1 i out) (h2 : slotSame b1 b2 i) : slotEq b2 i out :=
  ⟨h2.1.trans h1.1, h2.2.1.trans h1.2.1, h2.2.2.1.trans h1.2.2.1,
   h2.2.2.2.1.trans h1.2.2.2.1, h2.2.2.2.2.1.trans h1.2.2.2.2.1,
   h2.2.2.2.2.2.trans h1.2.2.2.2.2⟩

theorem forceCalls_spec (ffeval : Pos → Option FFOut) :
    ∀ (qs : List Pos) (c : Nat) (b : Buffers) (c2 : Nat) (b2 : Buffers),
      forceCalls ffeval c b qs = some (c2, b2) →
      c2 = c + qs.length ∧
      (∀ k (hk : k < qs.length), ∃ out, ffeval (qs.get ⟨k, hk⟩) = some out ∧
        slotEq b2 (c + k) out) ∧
      (∀ j, j < c ∨ c + qs.length ≤ j → slotSame b b2 j)
  | [], c, b, c2, b2, h => by
    simp only [forceCalls] at h
    injection h with h9
    injection h9 with hc hb
    subst hc
    subst hb
    exact ⟨by simp, fun k hk => absurd hk (by simp), fun j _ => slotSame_self b j⟩
  | q :: qs, c, b, c2, b2, h => by
    simp only [forceCalls] at h
    cases hf : force ffeval c b q with
    | none => rw [hf] at h; cases h
    | some r =>
      obtain ⟨c1, b1, acc⟩ := r
      rw [hf] at h
      obtain ⟨hc1, out, hout, hacc, hws⟩ := force_some hf
      subst hc1
      obtain ⟨ih1, ih2, ih3⟩ := forceCalls_spec ffeval qs (c + 1) b1 c2 b2 h
      refine ⟨by simp [ih1]; omega, ?_, ?_⟩
      · intro k hk
        cases k with
        | zero =>
          refine ⟨out, hout, ?_⟩
          exact slotEq_mono (writeSlot_slotEq hws)
            (ih3 c (Or.inl (by omega)))
        | succ k2 =>
          obtain ⟨out2, hout2, hsl⟩ := ih2 k2 (by simpa using hk)
          refine ⟨out2, ?_, ?_⟩
          · rw [List.get_cons_succ]; exact hout2
          · have he : c + 1 + k2 = c + (k2 + 1) := by omega
            rw [← he]; exact hsl
      · intro j hj
        simp only [List.length_cons] at hj
        have hne : j ≠ c := by rcases hj with hl | hr <;> omega
        have h1 : slotSame b b1 j := writeSlot_slotSame hws j hne
        have h2 : slotSame b1 b2 j := ih3 j (by
          rcases hj with hl | hr
          · exact Or.inl (by omega)
          · exact Or.inr (by omega))
        exact slotSame_trans h1 h2

/-- C1: Step-alignment invariant: each invocation of the force callback writes
all six diagnostic quantities (the four potential-energy components, the bond
angles, the pairwise distances) into the slot indexed by the current step
counter and then increments the counter by one; hence over any sequence of
callback invocations in the integrator's call order starting from counter 0,
slot i is written exactly once, by the i-th invocation — its final content is
the i-th force-field output and every slot at or beyond the number of calls is
untouched. -/
theorem step_alignment (ffeval : Pos → Option FFOut) (b : Buffers)
    (qs : List Pos) (c2 : Nat) (b2 : Buffers)
    (h : forceCalls ffeval 0 b qs = some (c2, b2)) :
    (∀ (c : Nat) (b1 : Buffers) (q : Pos) (c3 : Nat) (b3 : Buffers) (acc : Pos),
       force ffeval c b1 q = some (c3, b3, acc) →
       c3 = c + 1 ∧ ∃ out, ffeval q = some out ∧ acc = out.acceleration ∧
         slotEq b3 c out ∧ ∀ j, j ≠ c → slotSame b1 b3 j) ∧
    c2 = qs.length ∧
    (∀ k (hk : k < qs.length), ∃ out, ffeval (qs.get ⟨k, hk⟩) = some out ∧
      slotEq b2 k out) ∧
    (∀ j, qs.length ≤ j → slotSame b b2 j) := by
  obtain ⟨h1, h2, h3⟩ := forceCalls_spec ffeval qs 0 b c2 b2 h
  refine ⟨?_, by simpa using h1, by simpa using h2,
    fun j hj => h3 j (Or.inr (by omega))⟩
  intro c b1 q c3 b3 acc hf
  obtain ⟨hc, out, hout, hacc, hws⟩ := force_some hf
  exact ⟨hc, out, hout, hacc, writeSlot_slotEq hws, writeSlot_slotSame hws⟩

theorem step_alignment_witness :
    ∃ c2 b2, forceCalls ffevalC 0 (allocBuffers 1 1 1) [[], []] = some (c2, b2) ∧
      (∀ k (hk : k < ([[], []] : List Pos).length),
        ∃ out, ffevalC (([[], []] : List Pos).get ⟨k, hk⟩) = some out ∧
          slotEq b2 k out) := by
  have hrun : forceCalls ffevalC 0 (allocBuffers 1 1 1) [[], []] =
      some (2, ⟨[5, 5], [6, 6], [7, 7], [8, 8], [[9], [9]], [[[4]], [[4]]]⟩) := rfl
  exact ⟨_, _, hrun,
    (step_alignment ffevalC (allocBuffers 1 1 1) [[], []] _ _ hrun).2.2.1⟩

theorem npSet_ok {a : Arr1} {i : Nat} (x : ℚ) (h : i < a.length) :
    npSet a i x = some (a.set i x) := by
  unfold npSet; rw [if_pos h]

theorem writeSlot_ok {b : Buffers} {L nm na c : Nat} (out : FFOut)
    (hwf : BuffersWF b L nm na) (hc : c < L) (hba : out.bond_angles.length = nm)
    (hd1 : out.distances.length = na)
    (hd2 : ∀ r ∈ out.distances, r.length = na) :
    writeSlot b c out =
      some ⟨b.energy_potential_coulomb.set c out.energy_coulomb,
            b.energy_potential_lennard_jones.set c out.energy_lennard_jones,
            b.energy_potential_bond_vibration.set c out.energy_bond_vibration,
            b.energy_potential_angle_vibration.set c out.energy_angle_vibration,
            b.bond_angles.set c out.bond_angles,
            b.distances_interatomic.set c out.distances⟩ := by
  obtain ⟨L1, L2, L3, L4, L5, hrow5, L6, hrow6⟩ := hwf
  have hlt5 : c < b.bond_angles.length := by omega
  have hlt6 : c < b.distances_interatomic.length := by omega
  have hg5 := List.get?_eq_get hlt5
  have hg6 := List.get?_eq_get hlt6
  have hrl5 : (b.bond_angles.get ⟨c, hlt5⟩).length = nm :=
    hrow5 _ (List.get_mem _ _ _)
  have hrl6 := hrow6 _ (List.get_mem b.distances_interatomic c hlt6)
  have h5 : npSetRow b.bond_angles c out.bond_angles =
      some (b.bond_angles.set c out.bond_angles) := by
    unfold npSetRow
    simp only [hg5]
    rw [if_pos (by rw [hba, hrl5])]
  have h6 : npSetRow2 b.distances_interatomic c out.distances =
      some (b.distances_interatomic.set c out.distances) := by
    unfold npSetRow2
    simp only [hg6]
    rw [if_pos (sameShape2_of_uniform na _ _ (by rw [hd1, hrl6.1]) hd2 hrl6.2)]
  unfold writeSlot
  simp only [npSet_ok out.energy_coulomb (by omega : c < b.energy_potential_coulomb.length),
    npSet_ok out.energy_lennard_jones (by omega : c < b.energy_potential_lennard_jones.length),
    npSet_ok out.energy_bond_vibration (by omega : c < b.energy_potential_bond_vibration.length),
    npSet_ok out.energy_angle_vibration (by omega : c < b.energy_potential_angle_vibration.length),
    h5, h6]

theorem force_ok {ffeval : Pos → Option FFOut} {c L nm na : Nat} {b : Buffers}
    {q : Pos} {out : FFOut} (hq : ffeval q = some out)
    (hwf : BuffersWF b L nm na) (hc : c < L)
    (hba : out.bond_angles.length = nm) (hd1 : out.distances.length = na)
    (hd2 : ∀ r ∈ out.distances, r.length = na) :
    ∃ b2, force ffeval c b q = some (c + 1, b2, out.acceleration) ∧
      BuffersWF b2 L nm na := by
  have hws := writeSlot_ok out hwf hc hba hd1 hd2
  refine ⟨_, ?_, writeSlot_wf hws hwf⟩
  unfold force
  simp only [hq, hws]

theorem forceCalls_ok (ffeval : Pos → Option FFOut) {nm na : Nat}
    (hff : ∀ q, ∃ out, ffeval q = some out ∧ out.bond_angles.length = nm ∧
      out.distances.length = na ∧ ∀ r ∈ out.distances, r.length = na) :
    ∀ (qs : List Pos) (c : Nat) (b : Buffers) (L : Nat),
      BuffersWF b L nm na → c + qs.length ≤ L →
      ∃ b2, forceCalls ffeval c b qs = some (c + qs.length, b2) ∧
        BuffersWF b2 L nm na
  | [], c, b, L, hwf, _ => ⟨b, by simp [forceCalls], hwf⟩
  | q :: qs, c, b, L, hwf, hle => by
    obtain ⟨out, hq, hba, hd1, hd2⟩ := hff q
    have hc : c < L := by simp only [List.length_cons] at hle; omega
    obtain ⟨b1, hf, hwf1⟩ := force_ok hq hwf hc hba hd1 hd2
    obtain ⟨b2, hrec, hwf2⟩ := forceCalls_ok ffeval hff qs (c + 1) b1 L hwf1
      (by simp only [List.length_cons] at hle; omega)
    refine ⟨b2, ?_, hwf2⟩
    simp only [forceCalls, hf, List.length_cons]
    rw [hrec]
    congr 2
    omega

theorem allocBuffers_wf (n nm na : Nat) :
    BuffersWF (allocBuffers n nm na) (n + 1) nm na := by
  refine ⟨by simp [allocBuffers], by simp [allocBuffers], by simp [allocBuffers],
    by simp [allocBuffers], by simp [allocBuffers], ?_, by simp [allocBuffers], ?_⟩
  · intro r hr
    rw [List.eq_of_mem_replicate hr]
    simp
  · intro m hm
    rw [List.eq_of_mem_replicate hm]
    refine ⟨by simp, fun r hr => ?_⟩
    rw [List.eq_of_mem_replicate hr]
    simp

theorem forceCalls_append (ffeval : Pos → Option FFOut) :
    ∀ (l1 l2 : List Pos) (c : Nat) (b : Buffers),
      forceCalls ffeval c b (l1 ++ l2) =
        match forceCalls ffeval c b l1 with
        | none => none
        | some (c1, b1) => forceCalls ffeval c1 b1 l2
  | [], l2, c, b => by simp [forceCalls]
  | q :: l1, l2, c, b => by
    simp only [List.cons_append, forceCalls]
    cases force ffeval c b q with
    | none => rfl
    | some r =>
      obtain ⟨c1, b1, acc⟩ := r
      exact forceCalls_append ffeval l1 l2 c1 b1

/-- C2: Step-overflow detection: against buffers allocated for step count n
(sized n+1), a sequence of n+2 callback invocations fails: the first n+1 calls
succeed, the buffers keep their allocated size and shapes throughout (never
grown), and the extra invocation — with the counter at n+1 — fails loudly
(numpy IndexError on the very first diagnostic store, before any in-bounds
slot is overwritten), so the whole call sequence produces an error rather than
silent growth or wraparound. -/
theorem step_overflow (ffeval : Pos → Option FFOut) (n nm na : Nat)
    (qs : List Pos) (hlen : qs.length = n + 2)
    (hff : ∀ q, ∃ out, ffeval q = some out ∧ out.bond_angles.length = nm ∧
      out.distances.length = na ∧ ∀ r ∈ out.distances, r.length = na) :
    ∃ b1, forceCalls ffeval 0 (allocBuffers n nm na) (qs.take (n + 1)) =
        some (n + 1, b1) ∧
      BuffersWF b1 (n + 1) nm na ∧
      (∀ q2, force ffeval (n + 1) b1 q2 = none) ∧
      forceCalls ffeval 0 (allocBuffers n nm na) qs = none := by
  have hwf0 := allocBuffers_wf n nm na
  have htl : (qs.take (n + 1)).length = n + 1 := by
    rw [List.length_take]; omega
  obtain ⟨b1, hcalls, hwf1⟩ := forceCalls_ok ffeval hff (qs.take (n + 1)) 0
    (allocBuffers n nm na) (n + 1) hwf0 (by omega)
  rw [htl] at hcalls
  simp only [Nat.zero_add] at hcalls
  have hover : ∀ q2, force ffeval (n + 1) b1 q2 = none := fun q2 =>
    force_overflow ffeval _ _ _ (by rw [hwf1.1])
  have hdlen : (qs.drop (n + 1)).length = 1 := by
    rw [List.length_drop]; omega
  obtain ⟨q2, rest, hdrop⟩ : ∃ q2 rest, qs.drop (n + 1) = q2 :: rest := by
    cases hd : qs.drop (n + 1) with
    | nil => rw [hd] at hdlen; simp at hdlen
    | cons a l => exact ⟨a, l, rfl⟩
  refine ⟨b1, hcalls, hwf1, hover, ?_⟩
  have hsplit := forceCalls_append ffeval (qs.take (n + 1)) (qs.drop (n + 1)) 0
    (allocBuffers n nm na)
  rw [List.take_append_drop] at hsplit
  rw [hsplit, hcalls, hdrop]
  simp only [forceCalls, hover q2]

theorem step_overflow_witness :
    ∃ b1, forceCalls ffevalC 0 (allocBuffers 0 1 1)
        (([[], []] : List Pos).take 1) = some (1, b1) ∧
      BuffersWF b1 1 1 1 ∧
      (∀ q2, force ffevalC 1 b1 q2 = none) ∧
      forceCalls ffevalC 0 (allocBuffers 0 1 1) [[], []] = none :=
  step_overflow ffevalC 0 1 1 [[], []] rfl
    (fun _ => ⟨ffOutC, rfl, rfl, rfl, fun r hr => by
      rw [List.eq_of_mem_singleton hr]; rfl⟩)

theorem integrateFrom_lengths {σ : Type} (f : σ → Pos → Option (σ × Pos))
    (dt : ℚ) : ∀ (k : Nat) (tc : ℚ) (s : σ) (x v a : Pos) (s2 : σ)
      (xs vs : List Pos) (ts : List ℚ),
      integrateFrom f dt k tc s x v a = Except.ok (s2, xs, vs, ts) →
      xs.length = k + 1 ∧ vs.length = k + 1 ∧ ts.length = k + 1
  | 0, tc, s, x, v, a, s2, xs, vs, ts, h => by
    simp only [integrateFrom] at h
    injection h with h9
    injection h9 with h1 h8
    injection h8 with h2 h7
    injection h7 with h3 h4
    subst h2; subst h3; subst h4
    simp
  | Nat.succ k, tc, s, x, v, a, s2, xs, vs, ts, h => by
    simp only [integrateFrom] at h
    cases hf : f s (verletX dt x v a) with
    | none => simp only [hf] at h; cases h
    | some r =>
      obtain ⟨s1, a2⟩ := r
      simp only [hf] at h
      cases hrec : integrateFrom f dt k (tc + dt) s1 (verletX dt x v a)
          (verletV dt v a a2) a2 with
      | error s3 => simp only [hrec] at h; cases h
      | ok r2 =>
        obtain ⟨s3, xs3, vs3, ts3⟩ := r2
        simp only [hrec] at h
        obtain ⟨l1, l2, l3⟩ := integrateFrom_lengths f dt k (tc + dt) s1 _ _ a2
          s3 xs3 vs3 ts3 hrec
        injection h with h9
        injection h9 with h1 h8
        injection h8 with h2 h7
        injection h7 with h3 h4
        subst h2; subst h3; subst h4
        simp [l1, l2, l3]

theorem integrateFrom_inv {σ : Type} (f : σ → Pos → Option (σ × Pos))
    (P : σ → Prop)
    (hf : ∀ s q s2 acc, f s q = some (s2, acc) → P s → P s2) (dt : ℚ) :
    ∀ (k : Nat) (tc : ℚ) (s : σ) (x v a : Pos), P s →
      (∀ s2, integrateFrom f dt k tc s x v a = Except.error s2 → P s2) ∧
      (∀ s2 xs vs ts,
        integrateFrom f dt k tc s x v a = Except.ok (s2, xs, vs, ts) → P s2)
  | 0, tc, s, x, v, a, hp => by
    constructor
    · intro s2 h
      simp only [integrateFrom] at h
      exact Except.noConfusion h
    · intro s2 xs vs ts h
      simp only [integrateFrom] at h
      injection h with h9
      injection h9 with h1 h8
      subst h1
      exact hp
  | Nat.succ k, tc, s, x, v, a, hp => by
    constructor
    · intro s2 h
      simp only [integrateFrom] at h
      cases hfc : f s (verletX dt x v a) with
      | none =>
        simp only [hfc] at h
        injection h with h9
        subst h9
        exact hp
      | some r =>
        obtain ⟨s1, a2⟩ := r
        simp only [hfc] at h
        have hp1 : P s1 := hf s _ s1 a2 hfc hp
        cases hrec : integrateFrom f dt k (tc + dt) s1 (verletX dt x v a)
            (verletV dt v a a2) a2 with
        | error s3 =>
          simp only [hrec] at h
          injection h with h9
          subst h9
          exact (integrateFrom_inv f P hf dt k (tc + dt) s1 _ _ a2 hp1).1 s3 hrec
        | ok r2 =>
          obtain ⟨s3, xs3, vs3, ts3⟩ := r2
          simp only [hrec] at h
          cases h
    · intro s2 xs vs ts h
      simp only [integrateFrom] at h
      cases hfc : f s (verletX dt x v a) with
      | none => simp only [hfc] at h; cases h
      | some r =>
        obtain ⟨s1, a2⟩ := r
        simp only [hfc] at h
        have hp1 : P s1 := hf s _ s1 a2 hfc hp
        cases hrec : integrateFrom f dt k (tc + dt) s1 (verletX dt x v a)
            (verletV dt v a a2) a2 with
        | error s3 => simp only [hrec] at h; cases h
        | ok r2 =>
          obtain ⟨s3, xs3, vs3, ts3⟩ := r2
          simp only [hrec] at h
          injection h with h9
          injection h9 with h1 h8
          subst h1
          exact (integrateFrom_inv f P hf dt k (tc + dt) s1 _ _ a2 hp1).2 s3
            xs3 vs3 ts3 hrec

theorem integrateFrom_count {σ : Type} (f : σ → Pos → Option (σ × Pos))
    (μ : σ → Nat)
    (hf : ∀ s q s2 acc, f s q = some (s2, acc) → μ s2 = μ s + 1) (dt : ℚ) :
    ∀ (k : Nat) (tc : ℚ) (s : σ) (x v a : Pos) (s2 : σ) (xs vs : List Pos)
      (ts : List ℚ),
      integrateFrom f dt k tc s x v a = Except.ok (s2, xs, vs, ts) →
      μ s2 = μ s + k
  | 0, tc, s, x, v, a, s2, xs, vs, ts, h => by
    simp only [integrateFrom] at h
    injection h with h9
    injection h9 with h1 h8
    subst h1
    simp
  | Nat.succ k, tc, s, x, v, a, s2, xs, vs, ts, h => by
    simp only [integrateFrom] at h
    cases hfc : f s (verletX dt x v a) with
    | none => simp only [hfc] at h; cases h
    | some r =>
      obtain ⟨s1, a2⟩ := r
      simp only [hfc] at h
      cases hrec : integrateFrom f dt k (tc + dt) s1 (verletX dt x v a)
          (verletV dt v a a2) a2 with
      | error s3 => simp only [hrec] at h; cases h
      | ok r2 =>
        obtain ⟨s3, xs3, vs3, ts3⟩ := r2
        simp only [hrec] at h
        injection h with h9
        injection h9 with h1 h8
        subst h1
        have := integrateFrom_count f μ hf dt k (tc + dt) s1 _ _ a2 s3 xs3
          vs3 ts3 hrec
        rw [this, hf s _ s1 a2 hfc]
        omega

theorem integrate_lengths {σ : Type} {f : σ → Pos → Option (σ × Pos)}
    {x0 v0 : Pos} {dt : ℚ} {n : Nat} {s s2 : σ} {xs vs : List Pos}
    {ts : List ℚ} (h : integrate f x0 v0 dt n s = Except.ok (s2, xs, vs, ts)) :
    xs.length = n + 1 ∧ vs.length = n + 1 ∧ ts.length = n + 1 := by
  unfold integrate at h
  cases hfc : f s x0 with
  | none => simp only [hfc] at h; cases h
  | some r =>
    obtain ⟨s1, a0⟩ := r
    simp only [hfc] at h
    exact integrateFrom_lengths f dt n 0 s1 x0 v0 a0 s2 xs vs ts h

theorem integrate_inv_error {σ : Type} {f : σ → Pos → Option (σ × Pos)}
    {x0 v0 : Pos} {dt : ℚ} {n : Nat} {s s2 : σ} (P : σ → Prop)
    (h : integrate f x0 v0 dt n s = Except.error s2)
    (hf : ∀ s0 q s1 acc, f s0 q = some (s1, acc) → P s0 → P s1)
    (hp : P s) : P s2 := by
  unfold integrate at h
  cases hfc : f s x0 with
  | none =>
    simp only [hfc] at h
    injection h with h9
    subst h9
    exact hp
  | some r =>
    obtain ⟨s1, a0⟩ := r
    simp only [hfc] at h
    exact (integrateFrom_inv f P hf dt n 0 s1 x0 v0 a0
      (hf s x0 s1 a0 hfc hp)).1 s2 h

theorem integrate_inv_ok {σ : Type} {f : σ → Pos → Option (σ × Pos)}
    {x0 v0 : Pos} {dt : ℚ} {n : Nat} {s s2 : σ} {xs vs : List Pos}
    {ts : List ℚ} (P : σ → Prop)
    (h : integrate f x0 v0 dt n s = Except.ok (s2, xs, vs, ts))
    (hf : ∀ s0 q s1 acc, f s0 q = some (s1, acc) → P s0 → P s1)
    (hp : P s) : P s2 := by
  unfold integrate at h
  cases hfc : f s x0 with
  | none => simp only [hfc] at h; cases h
  | some r =>
    obtain ⟨s1, a0⟩ := r
    simp only [hfc] at h
    exact (integrateFrom_inv f P hf dt n 0 s1 x0 v0 a0
      (hf s x0 s1 a0 hfc hp)).2 s2 xs vs ts h

theorem integrate_count {σ : Type} {f : σ → Pos → Option (σ × Pos)}
    (μ : σ → Nat)
    (hf : ∀ s q s2 acc, f s q = some (s2, acc) → μ s2 = μ s + 1)
    {x0 v0 : Pos} {dt : ℚ} {n : Nat} {s s2 : σ} {xs vs : List Pos}
    {ts : List ℚ} (h : integrate f x0 v0 dt n s = Except.ok (s2, xs, vs, ts)) :
    μ s2 = μ s + n + 1 := by
  unfold integrate at h
  cases hfc : f s x0 with
  | none => simp only [hfc] at h; cases h
  | some r =>
    obtain ⟨s1, a0⟩ := r
    simp only [hfc] at h
    have := integrateFrom_count f μ hf dt n 0 s1 x0 v0 a0 s2 xs vs ts h
    rw [this, hf s x0 s1 a0 hfc]
    omega

theorem forceH_some {ffeval : Pos → Option FFOut} {r : Nat} {c : Nat} {h : Heap}
    {q : Pos} {c2 : Nat} {h2 : Heap} {acc : Pos}
    (hH : forceH ffeval r (c, h) q = some ((c2, h2), acc)) :
    ∃ b b2, h.store r = some b ∧ force ffeval c b q = some (c2, b2, acc) ∧
      h2 = h.set r b2 := by
  unfold forceH at hH
  cases hs : h.store r with
  | none =>
    simp only [hs] at hH
    exact Option.noConfusion hH
  | some b =>
    simp only [hs] at hH
    cases hf : force ffeval c b q with
    | none =>
      simp only [hf] at hH
      exact Option.noConfusion hH
    | some rr =>
      obtain ⟨c3, b2, acc2⟩ := rr
      simp only [hf] at hH
      injection hH with h9
      injection h9 with h8 hacc
      injection h8 with hc hh
      subst hc
      subst hh
      subst hacc
      exact ⟨b, b2, rfl, hf, rfl⟩

theorem Heap.set_store_ne {h : Heap} {r r0 : Nat} {b : Buffers}
    (hne : r0 ≠ r) : (h.set r b).store r0 = h.store r0 := by
  simp [Heap.set, hne]

theorem Heap.alloc_store_ne {h : Heap} {b : Buffers} {r0 : Nat}
    (hne : r0 ≠ h.next) : (h.alloc b).2.store r0 = h.store r0 := by
  simp [Heap.alloc, hne]

theorem forceH_inv_store {ffeval : Pos → Option FFOut} {r r0 : Nat}
    (hne : r0 ≠ r) (w : Option Buffers) :
    ∀ (ch : Nat × Heap) (q : Pos) (ch2 : Nat × Heap) (acc : Pos),
      forceH ffeval r ch q = some (ch2, acc) →
      ch.2.store r0 = w → ch2.2.store r0 = w := by
  intro ch q ch2 acc hH hw
  obtain ⟨c, h⟩ := ch
  obtain ⟨c2, h2⟩ := ch2
  obtain ⟨b, b2, _, _, hset⟩ := forceH_some hH
  subst hset
  rw [Heap.set_store_ne hne]
  exact hw

theorem forceH_inv_wf {ffeval : Pos → Option FFOut} {r : Nat} {L nm na : Nat} :
    ∀ (ch : Nat × Heap) (q : Pos) (ch2 : Nat × Heap) (acc : Pos),
      forceH ffeval r ch q = some (ch2, acc) →
      (∃ b, ch.2.store r = some b ∧ BuffersWF b L nm na) →
      ∃ b, ch2.2.store r = some b ∧ BuffersWF b L nm na := by
  intro ch q ch2 acc hH hw
  obtain ⟨c, h⟩ := ch
  obtain ⟨c2, h2⟩ := ch2
  obtain ⟨b, b2, hs, hf, hset⟩ := forceH_some hH
  obtain ⟨b3, hs3, hwf3⟩ := hw
  rw [hs] at hs3
  injection hs3 with hb3
  subst hb3
  obtain ⟨_, _, _, _, hws⟩ := force_some hf
  subst hset
  refine ⟨b2, ?_, writeSlot_wf hws hwf3⟩
  simp [Heap.set]

theorem forceH_count {ffeval : Pos → Option FFOut} {r : Nat} :
    ∀ (ch : Nat × Heap) (q : Pos) (ch2 : Nat × Heap) (acc : Pos),
      forceH ffeval r ch q = some (ch2, acc) → ch2.1 = ch.1 + 1 := by
  intro ch q ch2 acc hH
  obtain ⟨c, h⟩ := ch
  obtain ⟨c2, h2⟩ := ch2
  obtain ⟨b, b2, _, hf, _⟩ := forceH_some hH
  exact (force_some hf).1

theorem run_spec (s : MDSimulation) (h : Heap) (n : Nat) (dt : ℚ) (pbc : Bool) :
    (∀ s2 h2, MDSimulation.run s h n dt pbc = Except.error (s2, h2) →
      s2._trajectory = s._trajectory ∧
      ∀ r0, r0 ≠ h.next → h2.store r0 = h.store r0) ∧
    (∀ s2 h2, MDSimulation.run s h n dt pbc = Except.ok (s2, h2) →
      ∃ t, s2._trajectory = some t ∧ t.buffers_ref = h.next ∧
        t.positions.length = n + 1 ∧ t.velocities.length = n + 1 ∧
        t.timestamps.length = n + 1 ∧ s2._curr_step = some (n + 1) ∧
        (∀ r0, r0 ≠ h.next → h2.store r0 = h.store r0) ∧
        ∃ b, h2.store h.next = some b ∧
          BuffersWF b (n + 1) s._ensemble.value.number_molecules_total
            s._ensemble.value.number_atoms_total) := by
  constructor
  · intro s2 h2 herr
    simp only [MDSimulation.run] at herr
    split at herr
    · injection herr with h9
      injection h9 with hs2 hh2
      subst hs2
      subst hh2
      exact ⟨rfl, fun r0 hr0 => Heap.alloc_store_ne hr0⟩
    · split at herr
      · injection herr with h9
        injection h9 with hs2 hh2
        subst hs2
        subst hh2
        exact ⟨rfl, fun r0 hr0 => Heap.alloc_store_ne hr0⟩
      · split at herr
        · rename_i ch heq
          injection herr with h9
          injection h9 with hs2 hh2
          subst hs2
          subst hh2
          refine ⟨rfl, fun r0 hr0 => ?_⟩
          exact integrate_inv_error (fun ch0 => ch0.2.store r0 = h.store r0) heq
            (fun s0 q s1 acc hH hw => forceH_inv_store hr0 _ s0 q s1 acc hH hw)
            (Heap.alloc_store_ne hr0)
        · exact Except.noConfusion herr
  · intro s2 h2 hok
    simp only [MDSimulation.run] at hok
    split at hok
    · exact Except.noConfusion hok
    · split at hok
      · exact Except.noConfusion hok
      · split at hok
        · exact Except.noConfusion hok
        · rename_i r2 ch xs vs ts heq
          injection hok with h9
          injection h9 with hs2 hh2
          subst hs2
          subst hh2
          obtain ⟨l1, l2, l3⟩ := integrate_lengths heq
          have hcount := integrate_count (fun ch0 => ch0.1)
            (fun s0 q s1 acc hH => forceH_count s0 q s1 acc hH) heq
          refine ⟨_, rfl, rfl, l1, l2, l3, ?_, ?_, ?_⟩
          · show some ch.1 = some (n + 1)
            simp only at hcount
            rw [hcount]
            simp
          · intro r0 hr0
            exact integrate_inv_ok (fun ch0 => ch0.2.store r0 = h.store r0) heq
              (fun s0 q s1 acc hH hw => forceH_inv_store hr0 _ s0 q s1 acc hH hw)
              (Heap.alloc_store_ne hr0)
          · exact integrate_inv_ok
              (fun ch0 => ∃ b, ch0.2.store h.next = some b ∧
                BuffersWF b (n + 1) s._ensemble.value.number_molecules_total
                  s._ensemble.value.number_atoms_total) heq
              (fun s0 q s1 acc hH hw => forceH_inv_wf s0 q s1 acc hH hw)
              ⟨allocBuffers n s._ensemble.value.number_molecules_total
                  s._ensemble.value.number_atoms_total,
                by simp [Heap.alloc],
                allocBuffers_wf n _ _⟩

theorem init_ok_fields (ffa : ForceFieldArg) (ensa : EnsembleArg)
    (s0 : MDSimulation) (hok : MDSimulation.init ffa ensa = Except.ok s0) :
    s0._forcefield = ffa ∧ s0._ensemble = ensa ∧ s0._trajectory = none ∧
    s0._curr_step = none ∧ s0._buffers = none := by
  unfold MDSimulation.init at hok
  split at hok
  · exact Except.noConfusion hok
  · split at hok
    · exact Except.noConfusion hok
    · injection hok with h9
      subst h9
      exact ⟨rfl, rfl, rfl, rfl, rfl⟩

/-- C9: Eager collaborator validation: construction fails with a ValueError
exactly when the forcefield argument fails the ForceField class-membership
test or the ensemble argument fails the EnsembleGenerator class-membership
test; the rejection happens in the constructor, before any run, and on
success both arguments are stored unchanged with every result attribute
still unset. -/
theorem eager_collaborator_validation (ffa : ForceFieldArg) (ensa : EnsembleArg) :
    ((∃ e, MDSimulation.init ffa ensa = Except.error e) ↔
      (ffa.is_forcefield_instance = false ∨ ensa.is_ensemble_instance = false)) ∧
    (∀ s0, MDSimulation.init ffa ensa = Except.ok s0 →
      s0._forcefield = ffa ∧ s0._ensemble = ensa ∧ s0._trajectory = none ∧
      s0._curr_step = none ∧ s0._buffers = none) := by
  constructor
  · constructor
    · rintro ⟨e, he⟩
      unfold MDSimulation.init at he
      split at he
      · rename_i hc
        left
        revert hc
        cases ffa.is_forcefield_instance <;> simp
      · split at he
        · rename_i hc
          right
          revert hc
          cases ensa.is_ensemble_instance <;> simp
        · exact Except.noConfusion he
    · intro hor
      unfold MDSimulation.init
      cases hff : ffa.is_forcefield_instance with
      | false =>
        refine ⟨"Argument `forcefield` should either be an instance or a subclass of `mdforce.models.forcefield_superclass.ForceField`.", ?_⟩
        simp [hff]
      | true =>
        cases hee : ensa.is_ensemble_instance with
        | false =>
          refine ⟨"Argument `ensemble` should either be an instance or a subclass of `mdsim.ensemble_generator.superclass.EnsembleGenerator`.", ?_⟩
          simp [hff, hee]
        | true =>
          rcases hor with hc | hc
          · rw [hff] at hc; cases hc
          · rw [hee] at hc; cases hc
  · exact init_ok_fields ffa ensa

theorem eager_collaborator_validation_witness :
    simC._forcefield = ffaC ∧ simC._ensemble = ensaC ∧
    simC._trajectory = none ∧ simC._curr_step = none ∧ simC._buffers = none :=
  (eager_collaborator_validation ffaC ensaC).2 simC rfl

/-- C4: Not-yet-run error: on every driver state without a stored trajectory
— in particular a freshly constructed driver — the trajectory accessor raises
the "not yet run" ValueError instead of returning a value; after a successful
run the same accessor returns the Trajectory without error. -/
theorem not_yet_run (ffa : ForceFieldArg) (ensa : EnsembleArg) :
    (∀ s : MDSimulation, s._trajectory = none →
      s.trajectory = Except.error "The simulation has not yet been run.") ∧
    (∀ s0, MDSimulation.init ffa ensa = Except.ok s0 →
      s0.trajectory = Except.error "The simulation has not yet been run." ∧
      ∀ h n dt pbc s2 h2,
        MDSimulation.run s0 h n dt pbc = Except.ok (s2, h2) →
        ∃ t, s2.trajectory = Except.ok t) := by
  have hacc : ∀ s : MDSimulation, s._trajectory = none →
      s.trajectory = Except.error "The simulation has not yet been run." := by
    intro s hs
    simp only [MDSimulation.trajectory, hs]
  refine ⟨hacc, ?_⟩
  intro s0 hok
  have h0 : s0._trajectory = none :=
    (init_ok_fields ffa ensa s0 hok).2.2.1
  refine ⟨hacc s0 h0, ?_⟩
  intro h n dt pbc s2 h2 hrun
  obtain ⟨t, ht, _⟩ := (run_spec s0 h n dt pbc).2 s2 h2 hrun
  exact ⟨t, by simp only [MDSimulation.trajectory, ht]⟩

theorem not_yet_run_witness :
    simC.trajectory = Except.error "The simulation has not yet been run." ∧
    ∃ s2 h2 t, MDSimulation.run simC heap0 0 1 false = Except.ok (s2, h2) ∧
      s2.trajectory = Except.ok t := by
  have hthm := (not_yet_run ffaC ensaC).2 simC rfl
  obtain ⟨t, ht⟩ := hthm.2 heap0 0 1 false _ _ rfl
  exact ⟨hthm.1, _, _, t, rfl, ht⟩

/-- C5: Run atomicity on failure: whenever run fails — in force-field
initialization, unit fitting, or the integration loop — the stored trajectory
is exactly what it was before the call; in particular for a driver with no
prior successful run the trajectory accessor still reports the not-yet-run
condition afterwards, so a partially filled Trajectory is never observable. -/
theorem run_no_partial_trajectory (s : MDSimulation) (h : Heap) (n : Nat)
    (dt : ℚ) (pbc : Bool) (s2 : MDSimulation) (h2 : Heap)
    (herr : MDSimulation.run s h n dt pbc = Except.error (s2, h2)) :
    s2._trajectory = s._trajectory ∧
    (s._trajectory = none →
      s2.trajectory = Except.error "The simulation has not yet been run.") := by
  obtain ⟨h1, _⟩ := (run_spec s h n dt pbc).1 s2 h2 herr
  refine ⟨h1, fun hnone => ?_⟩
  simp only [MDSimulation.trajectory, h1, hnone]

theorem run_no_partial_trajectory_witness :
    ∃ s2 h2, MDSimulation.run simBadC heap0 0 1 false = Except.error (s2, h2) ∧
      s2._trajectory = none ∧
      s2.trajectory = Except.error "The simulation has not yet been run." := by
  obtain ⟨hA, hB⟩ := run_no_partial_trajectory simBadC heap0 0 1 false _ _ rfl
  exact ⟨_, _, rfl, hA, hB rfl⟩

/-- C3: Buffer and series sizing: for every step count n the allocated
diagnostic buffers have the documented shapes (four scalar series of length
n+1, bond angles of shape (n+1, num_molecules), pairwise distances of shape
(n+1, num_atoms, num_atoms)); and every successful run stores a trajectory
whose position, velocity and timestamp series have exactly n+1 frames and
whose diagnostic arrays still have exactly those shapes. -/
theorem buffer_and_series_sizing (n : Nat) :
    (∀ nm na, BuffersWF (allocBuffers n nm na) (n + 1) nm na) ∧
    (∀ (s : MDSimulation) (h : Heap) (dt : ℚ) (pbc : Bool) s2 h2,
      MDSimulation.run s h n dt pbc = Except.ok (s2, h2) →
      ∃ t, s2._trajectory = some t ∧
        t.positions.length = n + 1 ∧ t.velocities.length = n + 1 ∧
        t.timestamps.length = n + 1 ∧
        ∃ b, h2.store t.buffers_ref = some b ∧
          BuffersWF b (n + 1) s._ensemble.value.number_molecules_total
            s._ensemble.value.number_atoms_total) := by
  refine ⟨fun nm na => allocBuffers_wf n nm na, ?_⟩
  intro s h dt pbc s2 h2 hok
  obtain ⟨t, ht, href, l1, l2, l3, _, _, b, hb, hwf⟩ :=
    (run_spec s h n dt pbc).2 s2 h2 hok
  exact ⟨t, ht, l1, l2, l3, b, by rw [href]; exact hb, hwf⟩

theorem buffer_and_series_sizing_witness :
    BuffersWF (allocBuffers 0 1 1) 1 1 1 ∧
    ∃ s2 h2 t, MDSimulation.run simC heap0 0 1 false = Except.ok (s2, h2) ∧
      s2._trajectory = some t ∧ t.positions.length = 1 := by
  obtain ⟨t, ht, l1, _⟩ :=
    (buffer_and_series_sizing 0).2 simC heap0 1 false _ _ rfl
  exact ⟨(buffer_and_series_sizing 0).1 1 1, _, _, t, rfl, ht, l1⟩

/-- C10: Re-run re-initialization: every call to run allocates a fresh
buffers cell (unused in the pre-run heap) sized to the new step count and
resets the step counter to 0 before invoking the integrator (so on success it
ends at n+1); a run — failed or successful — never writes to the cell
referenced by a trajectory produced by an earlier run, whose contents are
therefore unchanged, and the new trajectory references a different cell. -/
theorem rerun_isolated (s : MDSimulation) (h : Heap) (n : Nat) (dt : ℚ)
    (pbc : Bool) (t0 : Trajectory) (b0 : Buffers)
    (ht0 : s._trajectory = some t0)
    (hb0 : h.store t0.buffers_ref = some b0)
    (hwf : ∀ r, h.next ≤ r → h.store r = none) :
    (∀ s2 h2, MDSimulation.run s h n dt pbc = Except.error (s2, h2) →
      h2.store t0.buffers_ref = some b0) ∧
    (∀ s2 h2, MDSimulation.run s h n dt pbc = Except.ok (s2, h2) →
      h2.store t0.buffers_ref = some b0 ∧
      ∃ t2, s2._trajectory = some t2 ∧ t2.buffers_ref ≠ t0.buffers_ref ∧
        h.store t2.buffers_ref = none ∧ s2._curr_step = some (n + 1) ∧
        ∃ b2, h2.store t2.buffers_ref = some b2 ∧
          BuffersWF b2 (n + 1) s._ensemble.value.number_molecules_total
            s._ensemble.value.number_atoms_total) := by
  have hlt : t0.buffers_ref < h.next := by
    by_contra hge
    rw [hwf _ (by omega)] at hb0
    cases hb0
  have hne : t0.buffers_ref ≠ h.next := by omega
  constructor
  · intro s2 h2 herr
    have hp := ((run_spec s h n dt pbc).1 s2 h2 herr).2 t0.buffers_ref hne
    rw [hp]
    exact hb0
  · intro s2 h2 hok
    obtain ⟨t2, ht2, href, _, _, _, hcs, hpres, b2, hb2, hwf2⟩ :=
      (run_spec s h n dt pbc).2 s2 h2 hok
    refine ⟨by rw [hpres _ hne]; exact hb0, t2, ht2, by rw [href]; omega,
      by rw [href]; exact hwf _ (le_refl _), hcs, b2, by rw [href]; exact hb2,
      hwf2⟩

theorem rerun_isolated_witness :
    ∃ s2 h2, MDSimulation.run simT heap1 0 1 false = Except.ok (s2, h2) ∧
      h2.store 0 = some b0C ∧
      ∃ t2, s2._trajectory = some t2 ∧ t2.buffers_ref ≠ 0 := by
  have hthm := rerun_isolated simT heap1 0 1 false t0C b0C rfl rfl
    (fun r hr => if_neg (by simp only [heap1] at hr; omega))
  obtain ⟨hpres, t2, ht2, hne2, _⟩ := hthm.2 _ _ rfl
  exact ⟨_, _, rfl, hpres, t2, ht2, hne2⟩
